import Mathlib

/-!
Verification development for nextpnr's router1 (`src/common/router1.cc`).

The C++ code is embedded shallowly:

* Opaque identifiers (`WireId`, `PipId`, `IdString`, `BelId`) become `Nat`
  with `0` playing the role of the default-constructed sentinel
  (`WireId()`, `PipId()`, the empty `IdString`).
* `delay_t` (an abstract nonnegative scalar in the spec) becomes `Int`.
* The `std::unordered_map` containers become association lists over
  decidable-equality keys, accessed only through `alist.get` /
  `alist.set` / `alist.eraseK`.
* The device/netlist proxy (`Context` / `MutateContext`) is not part of
  `src/common/router1.cc`; its query and binding operations are modelled
  from the spec (sections 6.1 and 6.2) as an `Arch` record of pure
  functions plus an explicit `BindState`.
* The C++ `std::priority_queue` with the `QueuedWire::Greater`
  comparator is modelled as a list from which `popMin` extracts a
  minimal element under the `(delay + togo, randtag)` order.
* `log_error` / `NPNR_ASSERT` / fuel exhaustion are modelled with
  `Except RunErr`; loops whose termination the C++ code does not
  guarantee structurally (`while (1)`, the path-search loop) take fuel.
-/

namespace Router1

abbrev WireId := Nat
abbrev PipId := Nat
abbrev IdStr := Nat
abbrev BelId := Nat
abbrev delay_t := Int

/-! ### Association lists (the shallow embedding of `std::unordered_map`) -/

/-- Lookup of the first binding of a key. -/
def alist.get {κ : Type} {α : Type} [DecidableEq κ] : List (κ × α) → κ → Option α
  | [], _ => none
  | (k, v) :: m, x => if x = k then some v else alist.get m x

/-- Overwrite the first binding of a key, or append a new binding. -/
def alist.set {κ : Type} {α : Type} [DecidableEq κ] : List (κ × α) → κ → α → List (κ × α)
  | [], k, v => [(k, v)]
  | (k', v') :: m, k, v => if k = k' then (k, v) :: m else (k', v') :: alist.set m k v

/-- Remove all bindings of a key. -/
def alist.eraseK {κ : Type} {α : Type} [DecidableEq κ] : List (κ × α) → κ → List (κ × α)
  | [], _ => []
  | (k', v') :: m, k => if k = k' then alist.eraseK m k else (k', v') :: alist.eraseK m k

/-- Counter read with the `operator[]` default of zero. -/
def alist.getN {κ : Type} [DecidableEq κ] (m : List (κ × Nat)) (k : κ) : Nat :=
  (alist.get m k).getD 0

/-- The `m[k]++` idiom of the scoreboard updates. -/
def alist.bump {κ : Type} [DecidableEq κ] (m : List (κ × Nat)) (k : κ) : List (κ × Nat) :=
  alist.set m k (alist.getN m k + 1)

/-! ### Core data (`QueuedWire`, lines 51-67; `RipupScoreboard`, lines 69-75) -/

/-- Search frontier record, `struct QueuedWire` (lines 51-67).  All fields
default to zero exactly as in the C++ member initialisers. -/
structure QueuedWire where
  wire : WireId := 0
  pip : PipId := 0
  delay : delay_t := 0
  togo : delay_t := 0
  randtag : Int := 0
deriving Repr, DecidableEq, Inhabited

/-- Strict comparison realising `QueuedWire::Greater` (lines 59-66): the
priority queue pops a minimum of `(delay + togo, randtag)` in
lexicographic order. -/
def QueuedWire.keyLt (a b : QueuedWire) : Bool :=
  decide (a.delay + a.togo < b.delay + b.togo) ||
    (decide (a.delay + a.togo = b.delay + b.togo) && decide (a.randtag < b.randtag))

/-- Extract a minimal element of the queue (the element
`std::priority_queue::top` returns under `QueuedWire::Greater`); among
entries with fully equal keys the earliest is taken. -/
def popMin : List QueuedWire → Option (QueuedWire × List QueuedWire)
  | [] => none
  | q :: qs =>
    match popMin qs with
    | none => some (q, [])
    | some (m, rest) => if QueuedWire.keyLt m q then some (m, q :: rest) else some (q, qs)

/-- Congestion history, `struct RipupScoreboard` (lines 69-75). -/
structure RipupScoreboard where
  wireScores : List (WireId × Nat) := []
  pipScores : List (PipId × Nat) := []
  netWireScores : List ((IdStr × WireId) × Nat) := []
  netPipScores : List ((IdStr × PipId) × Nat) := []
deriving Repr, DecidableEq, Inhabited

/-! ### Netlist view (spec section 6.2) -/

/-- Modelled from the spec: `cell.bel`, `cell.pins` of the netlist view
(section 6.2); the cell data itself lives outside `src/common`. -/
structure CellInfo where
  name : IdStr := 0
  bel : BelId := 0
  pins : List (IdStr × IdStr) := []
deriving Repr, DecidableEq, Inhabited

/-- Modelled from the spec: `PortRef = { cell, port }` (section 6.2).  The
cell pointer may be null (`driver.cell == nullptr` in line 427). -/
structure PortRef where
  cell : Option CellInfo := none
  port : IdStr := 0
deriving Repr, DecidableEq, Inhabited

/-- Modelled from the spec: `NetInfo = { driver, users, wires }`
(section 6.2).  The `wires` map is not stored here: it is the per-net
slice of the global `BindState` below. -/
structure NetInfo where
  driver : PortRef := {}
  users : List PortRef := []
deriving Repr, DecidableEq, Inhabited

/-! ### The device proxy (spec section 6.1) -/

/-- Modelled from the spec: the read-only proxy operations of
section 6.1 (`getPipSrcWire`, `getPipDstWire`, `getPipDelay().avgDelay()`,
`getPipsDownhill`, `estimateDelay`, `getDelayEpsilon`,
`getRipupDelayPenalty`, `getWireBelPin ∘ portPinFromId`, the RNG stream
and the two shuffles).  These all live outside `src/common/router1.cc`;
the router consumes them as opaque queries. -/
structure Arch where
  pipSrc : PipId → WireId
  pipDst : PipId → WireId
  pipAvgDelay : PipId → delay_t
  pipsDownhill : WireId → List PipId
  estimateDelay : WireId → WireId → delay_t
  delayEpsilon : delay_t
  ripupDelayPenalty : delay_t
  wireBelPin : BelId → IdStr → WireId
  rngStream : Nat → Int
  shufflePorts : List PortRef → List PortRef
  sortedShuffleIds : List IdStr → List IdStr

/-- Modelled from the spec: the authoritative binding state owned by the
proxy (section 6.1, read-write operations).  A wire entry `(w, (n, p))`
means wire `w` is bound to net `n`, arriving through pip `p` (`p = 0`
when the wire was bound by `bindWire`, mirroring the `wires` map of
section 6.2 whose values are `{ pip: PipId }`). -/
structure BindState where
  wireBound : List (WireId × (IdStr × PipId)) := []
  pipBound : List (PipId × IdStr) := []
deriving Repr, DecidableEq, Inhabited

/-- Modelled from the spec: `checkWireAvail` (section 6.1). -/
def checkWireAvail (bs : BindState) (w : WireId) : Bool :=
  (alist.get bs.wireBound w).isNone

/-- Modelled from the spec: `getConflictingWireNet`, returning the empty
sentinel when the wire is unbound (section 6.1). -/
def getConflictingWireNet (bs : BindState) (w : WireId) : IdStr :=
  match alist.get bs.wireBound w with
  | some (n, _) => n
  | none => 0

/-- Modelled from the spec: `checkPipAvail` (section 6.1). -/
def checkPipAvail (bs : BindState) (p : PipId) : Bool :=
  (alist.get bs.pipBound p).isNone

/-- Modelled from the spec: `getConflictingPipNet` (section 6.1). -/
def getConflictingPipNet (bs : BindState) (p : PipId) : IdStr :=
  match alist.get bs.pipBound p with
  | some n => n
  | none => 0

/-- Modelled from the spec: `bindWire` records a pip-less wire binding
(section 6.1). -/
def bindWire (bs : BindState) (w : WireId) (n : IdStr) : BindState :=
  { bs with wireBound := alist.set bs.wireBound w (n, 0) }

/-- Modelled from the spec: `bindPip` binds the pip and its destination
wire to the net (sections 6.1-6.2; `ripup_net` in lines 86-91 relies on
every pip-carrying wire entry being keyed by the pip's destination). -/
def bindPip (arch : Arch) (bs : BindState) (p : PipId) (n : IdStr) : BindState :=
  { wireBound := alist.set bs.wireBound (arch.pipDst p) (n, p),
    pipBound := alist.set bs.pipBound p n }

/-- Modelled from the spec: `unbindPip` releases the pip and its
destination wire (section 6.1). -/
def unbindPip (arch : Arch) (bs : BindState) (p : PipId) : BindState :=
  { wireBound := alist.eraseK bs.wireBound (arch.pipDst p),
    pipBound := alist.eraseK bs.pipBound p }

/-- Modelled from the spec: `unbindWire` releases the wire together with
the pip it was bound through, if any (section 6.1). -/
def unbindWire (bs : BindState) (w : WireId) : BindState :=
  match alist.get bs.wireBound w with
  | some (_, p) =>
    { wireBound := alist.eraseK bs.wireBound w,
      pipBound := if p ≠ 0 then alist.eraseK bs.pipBound p else bs.pipBound }
  | none => bs

/-- The `wires` map of a net (spec section 6.2): the slice of the global
wire bindings owned by net `n`. -/
def netWiresOf (bs : BindState) (n : IdStr) : List (WireId × PipId) :=
  bs.wireBound.filterMap (fun e => if e.2.1 = n then some (e.1, e.2.2) else none)

/-- The function `ripup_net` (lines 77-100): collect the net's pips and
pip-less wires, then unbind the pips and the wires. -/
def ripup_net (arch : Arch) (bs : BindState) (net_name : IdStr) : BindState :=
  let entries := netWiresOf bs net_name
  let pips := entries.filterMap (fun e => if e.2 ≠ 0 then some e.2 else none)
  let wires := entries.filterMap (fun e => if e.2 = 0 then some e.1 else none)
  let bs1 := pips.foldl (fun b p => unbindPip arch b p) bs
  wires.foldl (fun b w => unbindWire b w) bs1

/-! ### Path-search edge examination (lines 146-191) -/

/-- Per-net router configuration (the `net_name`, `ripup` and
`ripup_penalty` members of `struct Router`, lines 106-109). -/
structure RouterCfg where
  net_name : IdStr := 0
  ripup : Bool := false
  ripup_penalty : delay_t := 0
deriving Repr, DecidableEq, Inhabited

/-- The cost and skip logic of one downhill pip examination
(lines 147-191): `none` is the C++ `continue`, `some d` is the final
`next_delay` after congestion penalties.  The first component follows
lines 152-168 (wire availability), the second lines 170-186 (pip
availability), and the flat `ripup_penalty` surcharge is line 188-189. -/
def edgeNextDelay (arch : Arch) (cfg : RouterCfg) (scores : RipupScoreboard)
    (bs : BindState) (qw : QueuedWire) (pip : PipId) : Option delay_t :=
  let next_wire := arch.pipDst pip
  let wireStep : Option (delay_t × Bool) :=
    if checkWireAvail bs next_wire then some (qw.delay + arch.pipAvgDelay pip, false)
    else if cfg.ripup = false then none
    else
      let ripupWireNet := getConflictingWireNet bs next_wire
      if ripupWireNet = cfg.net_name ∨ ripupWireNet = 0 then none
      else
        let d0 := qw.delay + arch.pipAvgDelay pip
        let d1 := match alist.get scores.wireScores next_wire with
          | some s => d0 + ((s : Int) * cfg.ripup_penalty) / 8
          | none => d0
        let d2 := match alist.get scores.netWireScores (ripupWireNet, next_wire) with
          | some s => d1 + (s : Int) * cfg.ripup_penalty
          | none => d1
        some (d2, true)
  match wireStep with
  | none => none
  | some (d, foundRipupNet) =>
    let pipStep : Option (delay_t × Bool) :=
      if checkPipAvail bs pip then some (d, foundRipupNet)
      else if cfg.ripup = false then none
      else
        let ripupPipNet := getConflictingPipNet bs pip
        if ripupPipNet = cfg.net_name ∨ ripupPipNet = 0 then none
        else
          let d1 := match alist.get scores.pipScores pip with
            | some s => d + ((s : Int) * cfg.ripup_penalty) / 8
            | none => d
          let d2 := match alist.get scores.netPipScores (ripupPipNet, pip) with
            | some s => d1 + (s : Int) * cfg.ripup_penalty
            | none => d1
          some (d2, true)
    match pipStep with
    | none => none
    | some (d, f) => some (if f then d + cfg.ripup_penalty else d)

/-! ### The path search (`Router::route`, lines 118-223) -/

/-- The mutable state of one execution of `Router::route`: the visited
map and queue (lines 120-122), the two loop counters (lines 136-137)
and the `Router`-level revisit counters it increments (lines 204-207).
`rngCtr` is the position in the proxy's RNG stream. -/
structure RouteState where
  visited : List (WireId × QueuedWire) := []
  queue : List QueuedWire := []
  thisVisitCnt : Nat := 0
  thisVisitCntLimit : Nat := 0
  revisitCnt : Nat := 0
  overtimeRevisitCnt : Nat := 0
  rngCtr : Nat := 0
deriving Repr, DecidableEq, Inhabited

/-- Examination of a single downhill pip (the body of the `for` loop,
lines 146-219).  `thisVisitCnt` is incremented for every examined pip
(line 150) before any skip.  NOTE on line 215: the C++ writes
`qw.randtag = ctx->rng()` into the popped stack copy `qw`, which is
never read again — a dead store.  The freshly enqueued `next_qw`
therefore keeps its default `randtag = 0` while the RNG stream still
advances; the model reproduces this faithfully. -/
def examineEdge (arch : Arch) (cfg : RouterCfg) (scores : RipupScoreboard) (bs : BindState)
    (dst_wire : WireId) (qw : QueuedWire) (st : RouteState) (pip : PipId) : RouteState :=
  let st := { st with thisVisitCnt := st.thisVisitCnt + 1 }
  match edgeNextDelay arch cfg scores bs qw pip with
  | none => st
  | some next_delay =>
    let next_wire := arch.pipDst pip
    match alist.get st.visited next_wire with
    | some old =>
      if old.delay ≤ next_delay + arch.delayEpsilon then st
      else
        let st :=
          if st.thisVisitCntLimit = 0 then { st with revisitCnt := st.revisitCnt + 1 }
          else { st with overtimeRevisitCnt := st.overtimeRevisitCnt + 1 }
        let next_qw : QueuedWire :=
          { wire := next_wire, pip := pip, delay := next_delay,
            togo := arch.estimateDelay next_wire dst_wire, randtag := 0 }
        { st with visited := alist.set st.visited next_wire next_qw,
                  queue := st.queue ++ [next_qw], rngCtr := st.rngCtr + 1 }
    | none =>
      let next_qw : QueuedWire :=
        { wire := next_wire, pip := pip, delay := next_delay,
          togo := arch.estimateDelay next_wire dst_wire, randtag := 0 }
      { st with visited := alist.set st.visited next_wire next_qw,
                queue := st.queue ++ [next_qw], rngCtr := st.rngCtr + 1 }

/-- One iteration of the search loop (lines 139-220): `none` when the
loop condition of line 139 fails, otherwise the popped entry and the
state after the limit update (lines 143-144) and all edge
examinations. -/
def routeStep (arch : Arch) (cfg : RouterCfg) (scores : RipupScoreboard) (bs : BindState)
    (dst_wire : WireId) (st : RouteState) : Option (QueuedWire × RouteState) :=
  match popMin st.queue with
  | none => none
  | some (qw, rest) =>
    if st.thisVisitCntLimit ≠ 0 ∧ st.thisVisitCntLimit ≤ st.thisVisitCnt then none
    else
      let st1 := { st with queue := rest }
      let st2 :=
        if st1.thisVisitCntLimit = 0 ∧ (alist.get st1.visited dst_wire).isSome then
          { st1 with thisVisitCntLimit := (st1.thisVisitCnt * 3) / 2 }
        else st1
      some (qw, (arch.pipsDownhill qw.wire).foldl
        (fun s p => examineEdge arch cfg scores bs dst_wire qw s p) st2)

/-- The search loop (lines 139-220), with fuel standing in for the
unbounded `while`. -/
def routeLoop (arch : Arch) (cfg : RouterCfg) (scores : RipupScoreboard) (bs : BindState)
    (dst_wire : WireId) : Nat → RouteState → RouteState
  | 0, st => st
  | fuel + 1, st =>
    match routeStep arch cfg scores bs dst_wire st with
    | none => st
    | some (_, st') => routeLoop arch cfg scores bs dst_wire fuel st'

/-- The sequence of wires popped by the search loop, in order — a direct
observation of the `queue.top()` values of line 140 along the run. -/
def routePops (arch : Arch) (cfg : RouterCfg) (scores : RipupScoreboard) (bs : BindState)
    (dst_wire : WireId) : Nat → RouteState → List WireId
  | 0, _ => []
  | fuel + 1, st =>
    match routeStep arch cfg scores bs dst_wire st with
    | none => []
    | some (qw, st') => qw.wire :: routePops arch cfg scores bs dst_wire fuel st'

/-- The `Router`-level members touched by `route` (lines 111-116). -/
structure RouterState where
  visited : List (WireId × QueuedWire) := []
  visitCnt : Nat := 0
  revisitCnt : Nat := 0
  overtimeRevisitCnt : Nat := 0
  rngCtr : Nat := 0
deriving Repr, DecidableEq, Inhabited

/-- Initialisation of the search (lines 120-134): clear `visited`, then
seed queue and visited map from the source wires, drawing a fresh
`randtag` from the RNG for each source. -/
def routeInit (arch : Arch) (dst_wire : WireId) (src_wires : List (WireId × delay_t))
    (rs : RouterState) : RouteState :=
  let z := src_wires.foldl
    (fun (acc : List (WireId × QueuedWire) × List QueuedWire × Nat) sw =>
      let qw : QueuedWire :=
        { wire := sw.1, pip := 0, delay := sw.2,
          togo := arch.estimateDelay sw.1 dst_wire, randtag := arch.rngStream acc.2.2 }
      (alist.set acc.1 sw.1 qw, acc.2.1 ++ [qw], acc.2.2 + 1))
    ([], [], rs.rngCtr)
  { visited := z.1, queue := z.2.1, thisVisitCnt := 0, thisVisitCntLimit := 0,
    revisitCnt := rs.revisitCnt, overtimeRevisitCnt := rs.overtimeRevisitCnt,
    rngCtr := z.2.2 }

/-- The whole of `Router::route` (lines 118-223): initialise, run the
loop, publish the visited map and add `thisVisitCnt` into the
`Router`-level `visitCnt` (line 222). -/
def route (arch : Arch) (cfg : RouterCfg) (scores : RipupScoreboard) (bs : BindState)
    (fuel : Nat) (rs : RouterState) (src_wires : List (WireId × delay_t))
    (dst_wire : WireId) : RouterState :=
  let st := routeLoop arch cfg scores bs dst_wire fuel (routeInit arch dst_wire src_wires rs)
  { visited := st.visited, visitCnt := rs.visitCnt + st.thisVisitCnt,
    revisitCnt := st.revisitCnt, overtimeRevisitCnt := st.overtimeRevisitCnt,
    rngCtr := st.rngCtr }

/-! ### The net router (`Router` net-name constructor, lines 253-404) -/

/-- The exceptional outcomes: `logError` models `log_error` (which
throws `log_execution_error_exception`) and the `nets.at` lookup
failure; `assertFail` models a firing `NPNR_ASSERT`; `fuelOut` models a
non-terminating `while (1)` back-trace, which the C++ would never
return from. -/
inductive RunErr where
  | logError
  | assertFail
  | fuelOut
deriving Repr, DecidableEq

/-- Deduplicating insertion into a modelled `std::unordered_set`. -/
def insertId (q : List IdStr) (n : IdStr) : List IdStr :=
  if n ∈ q then q else q ++ [n]

/-- The state threaded through one net's routing: bindings, scoreboard,
`rippedNets` (line 111) and the growing `src_wires` map
(lines 290-291, 398). -/
structure NetCtx where
  bs : BindState := {}
  scores : RipupScoreboard := {}
  rippedNets : List IdStr := []
  src_wires : List (WireId × delay_t) := []
deriving Repr, DecidableEq, Inhabited

/-- The wire-conflict handling of the back-trace (lines 364-378): the
two `NPNR_ASSERT`s abort (error), the conflicting wire is unbound and
the conflicting net fully ripped up if the wire is still unavailable
(shared state), the conflict is recorded, and the three wire-side
scoreboard counters are incremented. -/
def wireConflict (arch : Arch) (cfg : RouterCfg) (nc : NetCtx) (cursor : WireId) :
    Except RunErr NetCtx :=
  let conflicting_wire_net := getConflictingWireNet nc.bs cursor
  if conflicting_wire_net ≠ 0 then
    if cfg.ripup = false then Except.error RunErr.assertFail
    else if conflicting_wire_net = cfg.net_name then Except.error RunErr.assertFail
    else
      let bs := unbindWire nc.bs cursor
      let bs := if checkWireAvail bs cursor = false then
          ripup_net arch bs conflicting_wire_net
        else bs
      Except.ok { nc with
        bs := bs,
        rippedNets := insertId nc.rippedNets conflicting_wire_net,
        scores :=
          { nc.scores with
              wireScores := alist.bump nc.scores.wireScores cursor,
              netWireScores := alist.bump
                (alist.bump nc.scores.netWireScores (cfg.net_name, cursor))
                (conflicting_wire_net, cursor) } }
  else Except.ok nc

/-- The pip-conflict handling of the back-trace (lines 380-395),
symmetric to `wireConflict`. -/
def pipConflict (arch : Arch) (cfg : RouterCfg) (nc : NetCtx) (pip : PipId) :
    Except RunErr NetCtx :=
  let conflicting_pip_net := getConflictingPipNet nc.bs pip
  if conflicting_pip_net ≠ 0 then
    if cfg.ripup = false then Except.error RunErr.assertFail
    else if conflicting_pip_net = cfg.net_name then Except.error RunErr.assertFail
    else
      let bs := unbindPip arch nc.bs pip
      let bs := if checkPipAvail bs pip = false then
          ripup_net arch bs conflicting_pip_net
        else bs
      Except.ok { nc with
        bs := bs,
        rippedNets := insertId nc.rippedNets conflicting_pip_net,
        scores :=
          { nc.scores with
              pipScores := alist.bump nc.scores.pipScores pip,
              netPipScores := alist.bump
                (alist.bump nc.scores.netPipScores (cfg.net_name, pip))
                (conflicting_pip_net, pip) } }
  else Except.ok nc

/-- One step of the back-trace loop (lines 364-399): resolve a wire
conflict (lines 364-378), then a pip conflict (lines 380-395), bind the
arriving pip (line 397), extend `src_wires` (line 398) and move the
cursor to the pip's source wire (line 399).  The C++ `visited[cursor]`
uses `operator[]`, which default-constructs on a missing key; `getD`
mirrors that read. -/
def backtraceStep (arch : Arch) (cfg : RouterCfg) (visited : List (WireId × QueuedWire))
    (nc : NetCtx) (cursor : WireId) : Except RunErr (NetCtx × WireId) :=
  match wireConflict arch cfg nc cursor with
  | Except.error e => Except.error e
  | Except.ok nc =>
    let qcur : QueuedWire := (alist.get visited cursor).getD {}
    match pipConflict arch cfg nc qcur.pip with
    | Except.error e => Except.error e
    | Except.ok nc =>
      Except.ok ({ nc with bs := bindPip arch nc.bs qcur.pip cfg.net_name,
                           src_wires := alist.set nc.src_wires cursor qcur.delay },
                 arch.pipSrc qcur.pip)

/-- The back-trace loop (lines 355-400): walk from the sink until a wire
already in `src_wires` is reached (line 361). -/
def backtrace (arch : Arch) (cfg : RouterCfg) (visited : List (WireId × QueuedWire)) :
    Nat → NetCtx → WireId → Except RunErr NetCtx
  | 0, _, _ => throw RunErr.fuelOut
  | fuel + 1, nc, cursor =>
    if (alist.get nc.src_wires cursor).isSome then pure nc
    else do
      let r ← backtraceStep arch cfg visited nc cursor
      backtrace arch cfg visited fuel r.1 r.2

/-- Resolution of a `PortRef` to its bel-pin wire, shared by the driver
(lines 264-285) and sink (lines 305-327) code: a missing cell, missing
bel or missing wire is a `log_error`.  The `pins` indirection is
lines 275-277 / 316-319. -/
def resolvePortWire (arch : Arch) (pr : PortRef) : Except RunErr WireId :=
  match pr.cell with
  | none => throw RunErr.logError
  | some cell =>
    if cell.bel = 0 then throw RunErr.logError
    else
      let port := match alist.get cell.pins pr.port with
        | some p => p
        | none => pr.port
      let w := arch.wireBelPin cell.bel port
      if w = 0 then throw RunErr.logError else pure w

/-- The outcome of routing one net: the final context, the final
`Router`-level search counters, and the `routedOkay` / `failedDest` /
`maxDelay` members (lines 114-116). -/
structure NetResult where
  nc : NetCtx := {}
  rs : RouterState := {}
  routedOkay : Bool := false
  failedDest : WireId := 0
  maxDelay : delay_t := 0
deriving Repr, DecidableEq, Inhabited

/-- The per-sink loop of the net-name constructor (lines 301-401): for
each user resolve the sink wire, run the path search, on a miss rip the
whole net up and return failure (lines 336-346), otherwise back-trace
and bind (lines 350-400). -/
def routeSinks (arch : Arch) (cfg : RouterCfg) (fuel : Nat) :
    List PortRef → NetCtx → RouterState → delay_t → Except RunErr NetResult
  | [], nc, rs, maxD =>
    pure { nc := nc, rs := rs, routedOkay := true, failedDest := 0, maxDelay := maxD }
  | user :: rest, nc, rs, maxD => do
    let dst_wire ← resolvePortWire arch user
    let rs' := route arch cfg nc.scores nc.bs fuel rs nc.src_wires dst_wire
    match alist.get rs'.visited dst_wire with
    | none =>
      pure { nc := { nc with bs := ripup_net arch nc.bs cfg.net_name }, rs := rs',
             routedOkay := false, failedDest := dst_wire, maxDelay := maxD }
    | some qdst => do
      let nc' ← backtrace arch cfg rs'.visited fuel nc dst_wire
      routeSinks arch cfg fuel rest nc' rs' (max maxD qdst.delay)

/-- The net-name `Router` constructor (lines 253-404): resolve the
driver wire, rip up the net (line 295), bind the source wire weakly
(line 296), then route every (shuffled, line 299) sink. -/
def routeNet (arch : Arch) (nets : List (IdStr × NetInfo)) (scores : RipupScoreboard)
    (bs : BindState) (net_name : IdStr) (ripup : Bool) (ripup_penalty : delay_t)
    (fuel : Nat) (rngCtr : Nat) : Except RunErr NetResult := do
  let net_info ←
    match alist.get nets net_name with
    | some i => pure i
    | none => throw RunErr.logError
  let src_wire ← resolvePortWire arch net_info.driver
  let cfg : RouterCfg := { net_name := net_name, ripup := ripup, ripup_penalty := ripup_penalty }
  let bs := ripup_net arch bs net_name
  let bs := bindWire bs src_wire net_name
  let users := arch.shufflePorts net_info.users
  let nc : NetCtx := { bs := bs, scores := scores, rippedNets := [],
                       src_wires := [(src_wire, 0)] }
  let rs : RouterState := { visited := [], visitCnt := 0, revisitCnt := 0,
                            overtimeRevisitCnt := 0, rngCtr := rngCtr }
  routeSinks arch cfg fuel users nc rs 0

/-! ### The rip-up loop (`router1`, lines 411-653) -/

/-- The state of the outer loop: bindings, scoreboard, the nets queue
(line 421), the escalating `ripup_penalty` (line 415) and the iteration
counter (line 494). -/
structure TopState where
  bs : BindState := {}
  scores : RipupScoreboard := {}
  netsQueue : List IdStr := []
  ripup_penalty : delay_t := 0
  iterCnt : Nat := 0
  rngCtr : Nat := 0
deriving Repr, DecidableEq, Inhabited

/-- Pass A (lines 523-544): route every queued net without rip-up;
failed nets are collected into `ripupQueue`. -/
def passA (arch : Arch) (nets : List (IdStr × NetInfo)) (fuel : Nat) :
    List IdStr → TopState → List IdStr → Except RunErr (TopState × List IdStr)
  | [], st, ripupQueue => pure (st, ripupQueue)
  | n :: rest, st, ripupQueue => do
    let res ← routeNet arch nets st.scores st.bs n false 0 fuel st.rngCtr
    let st := { st with bs := res.nc.bs, scores := res.nc.scores, rngCtr := res.rs.rngCtr }
    passA arch nets fuel rest st
      (if res.routedOkay then ripupQueue else ripupQueue ++ [n])

/-- Pass B (lines 574-606): route each failed net with rip-up enabled;
a miss in rip-up mode is the fatal `log_error` of line 587, and every
ripped-up net re-enters the queue (lines 589-590). -/
def passB (arch : Arch) (nets : List (IdStr × NetInfo)) (fuel : Nat) :
    List IdStr → TopState → Except RunErr TopState
  | [], st => pure st
  | n :: rest, st => do
    let res ← routeNet arch nets st.scores st.bs n true st.ripup_penalty fuel st.rngCtr
    if res.routedOkay = false then throw RunErr.logError
    let st := { st with bs := res.nc.bs, scores := res.nc.scores, rngCtr := res.rs.rngCtr,
                        netsQueue := res.nc.rippedNets.foldl insertId st.netsQueue }
    passB arch nets fuel rest st

/-- One iteration of the outer `while` (lines 506-632): snapshot and
clear the queue (lines 519-521), pass A, pass B over the sorted-shuffled
rip-up queue (line 571-572), then the penalty escalation of
lines 631-632 at iterations 8, 16, 32, 64, 128. -/
def iterBody (arch : Arch) (nets : List (IdStr × NetInfo)) (fuel : Nat)
    (st : TopState) : Except RunErr TopState := do
  let i := st.iterCnt + 1
  let netsArray := arch.sortedShuffleIds st.netsQueue
  let st := { st with netsQueue := [], iterCnt := i }
  let r ← passA arch nets fuel netsArray st []
  let st ← passB arch nets fuel (arch.sortedShuffleIds r.2) r.1
  pure { st with ripup_penalty :=
    if i = 8 ∨ i = 16 ∨ i = 32 ∨ i = 64 ∨ i = 128 then
      st.ripup_penalty + arch.ripupDelayPenalty
    else st.ripup_penalty }

/-- The outer loop (lines 496-633).  The iteration fuel is exactly the
distance to the cap of line 497: when it runs out with a nonempty queue
the router gives up with `false`.  A thrown `log_error` is caught at
line 647 and also yields `false`. -/
def router1Loop (arch : Arch) (nets : List (IdStr × NetInfo)) (fuel : Nat) :
    Nat → TopState → Bool × TopState
  | 0, st => if st.netsQueue = [] then (true, st) else (false, st)
  | iterFuel + 1, st =>
    if st.netsQueue = [] then (true, st)
    else
      match iterBody arch nets fuel st with
      | Except.error _ => (false, st)
      | Except.ok st' => router1Loop arch nets fuel iterFuel st'

/-- The initial queue construction (lines 423-434): nets with a driver
cell and an empty `wires` map. -/
def initialQueue (nets : List (IdStr × NetInfo)) (bs : BindState) : List IdStr :=
  nets.foldl
    (fun q e =>
      if e.2.driver.cell.isNone then q
      else if (netWiresOf bs e.1).isEmpty = false then q
      else insertId q e.1) []

/-- The `TopState` as set up in lines 414-434: fresh scoreboard, the
device's nominal penalty, iteration count zero. -/
def initTop (arch : Arch) (nets : List (IdStr × NetInfo)) (bs : BindState) : TopState :=
  { bs := bs, scores := {}, netsQueue := initialQueue nets bs,
    ripup_penalty := arch.ripupDelayPenalty, iterCnt := 0, rngCtr := 0 }

/-- The entry point `router1` (lines 411-653): build the queue, return
success immediately when it is empty (lines 436-439), otherwise run the
capped loop. -/
def router1 (arch : Arch) (nets : List (IdStr × NetInfo)) (bs : BindState)
    (fuel : Nat) : Bool × TopState :=
  let st := initTop arch nets bs
  if st.netsQueue = [] then (true, st)
  else router1Loop arch nets fuel 200 st

/-- The `k`-fold composition of successful loop iterations, used to
state properties of the outer loop. -/
def iterates (arch : Arch) (nets : List (IdStr × NetInfo)) (fuel : Nat) :
    Nat → TopState → Option TopState
  | 0, st => some st
  | k + 1, st =>
    match iterBody arch nets fuel st with
    | Except.error _ => none
    | Except.ok st' => iterates arch nets fuel k st'

/-! ### The actual-delay probe (lines 225-251 and 655-662) -/

/-- The wire-pair `Router` constructor (lines 225-235): a single zero
delay source, no rip-up, fresh scoreboard; `routedOkay` is whether the
destination entered the visited map (line 235). -/
def routerSrcDst (arch : Arch) (bs : BindState) (fuel : Nat)
    (src_wire dst_wire : WireId) (rngCtr : Nat) : RouterState :=
  route arch { net_name := 0, ripup := false, ripup_penalty := 0 } {} bs fuel
    { visited := [], visitCnt := 0, revisitCnt := 0, overtimeRevisitCnt := 0,
      rngCtr := rngCtr } [(src_wire, 0)] dst_wire

/-- `Context::getActualRouteDelay` (lines 655-662): the in-out `delay`
argument is returned updated only when the route succeeded. -/
def getActualRouteDelay (arch : Arch) (bs : BindState) (fuel : Nat)
    (src_wire dst_wire : WireId) (rngCtr : Nat) (delay : delay_t) : Bool × delay_t :=
  let router := routerSrcDst arch bs fuel src_wire dst_wire rngCtr
  match alist.get router.visited dst_wire with
  | some q => (true, q.delay)
  | none => (false, delay)

/-! ### Well-formedness predicates used by the contracts -/

/-- Well-formed binding state: wire keys are not duplicated, and every
wire entry carrying a pip is keyed by that pip's destination wire —
the shape `bindPip` creates and `ripup_net` (lines 86-97) relies on. -/
def BindWF (arch : Arch) (bs : BindState) : Prop :=
  (bs.wireBound.map Prod.fst).Nodup ∧
  ∀ e ∈ bs.wireBound, e.2.2 ≠ 0 → arch.pipDst e.2.2 = e.1

/-- Device coherence: every pip reported downhill of a wire is a real
pip (not the sentinel) whose source is that wire (spec section 6.1,
`getPipsDownhill` / `getPipSrcWire`). -/
def ArchWF (arch : Arch) : Prop :=
  ∀ w p, p ∈ arch.pipsDownhill w → arch.pipSrc p = w ∧ p ≠ 0

/-- Every wire recorded in the `src_wires` map is currently bound to
the net being routed — the invariant that makes the multi-sink spine
re-use of lines 290-291 and 398 sound. -/
def SrcBound (net_name : IdStr) (bs : BindState) (sw : List (WireId × delay_t)) : Prop :=
  ∀ w, (alist.get sw w).isSome = true →
    ∃ p, alist.get bs.wireBound w = some (net_name, p)

/-- The shape of the visited map `Router::route` produces: an entry with
a zero pip is one of the search's sources, and an entry reached through
a pip is keyed by the pip's destination, with the pip's source itself
visited. -/
def VisitedWF (arch : Arch) (src0 : List (WireId × delay_t))
    (visited : List (WireId × QueuedWire)) : Prop :=
  ∀ w q, alist.get visited w = some q →
    (q.pip = 0 → (alist.get src0 w).isSome = true) ∧
    (q.pip ≠ 0 → arch.pipDst q.pip = w ∧ (alist.get visited (arch.pipSrc q.pip)).isSome = true)

/-- Every queued entry is present in the visited map (lines 132-133 and
217-218 always insert into both). -/
def QueueWF (visited : List (WireId × QueuedWire)) (queue : List QueuedWire) : Prop :=
  ∀ q ∈ queue, (alist.get visited q.wire).isSome = true

/-- Accounting measure of a search state: both revisit counters plus
the size of the visited map (settled wires). -/
def acct (st : RouteState) : Nat :=
  st.revisitCnt + st.overtimeRevisitCnt + st.visited.length

/-- Invariant tying the visit-count limit and the overtime counter to
the destination having been reached. -/
def reachInv (dst_wire : WireId) (st : RouteState) : Prop :=
  (st.thisVisitCntLimit ≠ 0 → (alist.get st.visited dst_wire).isSome = true) ∧
  (st.overtimeRevisitCnt ≠ 0 → (alist.get st.visited dst_wire).isSome = true)

/-- Pointwise order on scoreboards: every counter of the first is at
most the corresponding counter of the second. -/
def scoresLe (a b : RipupScoreboard) : Prop :=
  (∀ k, alist.getN a.wireScores k ≤ alist.getN b.wireScores k) ∧
  (∀ k, alist.getN a.pipScores k ≤ alist.getN b.pipScores k) ∧
  (∀ k, alist.getN a.netWireScores k ≤ alist.getN b.netWireScores k) ∧
  (∀ k, alist.getN a.netPipScores k ≤ alist.getN b.netPipScores k)

/-! ### Concrete devices and runs used as test vectors -/

/-- Two wires `1 ⇄ 2` joined by pips `1 : 1→2` and `2 : 2→1`, each of
delay 1; the RNG stream yields `100 + k`. -/
def archTwo : Arch where
  pipSrc := fun p => if p = 1 then 1 else if p = 2 then 2 else 0
  pipDst := fun p => if p = 1 then 2 else if p = 2 then 1 else 0
  pipAvgDelay := fun _ => 1
  pipsDownhill := fun w => if w = 1 then [1] else if w = 2 then [2] else []
  estimateDelay := fun _ _ => 0
  delayEpsilon := 0
  ripupDelayPenalty := 10
  wireBelPin := fun _ _ => 0
  rngStream := fun k => 100 + (k : Int)
  shufflePorts := fun l => l
  sortedShuffleIds := fun l => l

/-- Diamond-ish device for the visit-limit claim: pips `1 : 1→2`
(delay 5), `2 : 1→3` (delay 1), `3 : 3→4` (delay 1); destination 2 is
discovered early but never becomes the cheapest frontier entry. -/
def archLimit : Arch where
  pipSrc := fun p => if p = 1 then 1 else if p = 2 then 1 else if p = 3 then 3 else 0
  pipDst := fun p => if p = 1 then 2 else if p = 2 then 3 else if p = 3 then 4 else 0
  pipAvgDelay := fun p => if p = 1 then 5 else 1
  pipsDownhill := fun w => if w = 1 then [1, 2] else if w = 3 then [3] else []
  estimateDelay := fun _ _ => 0
  delayEpsilon := 0
  ripupDelayPenalty := 10
  wireBelPin := fun _ _ => 0
  rngStream := fun _ => 0
  shufflePorts := fun l => l
  sortedShuffleIds := fun l => l

/-- Device on which an overtime revisit occurs: pips `1 : 1→2`
(delay 10), `2 : 1→3` (delay 1), `3 : 3→2` (delay 5); the expensive
direct path to wire 2 is improved after the limit engages. -/
def archOvertime : Arch where
  pipSrc := fun p => if p = 1 then 1 else if p = 2 then 1 else if p = 3 then 3 else 0
  pipDst := fun p => if p = 1 then 2 else if p = 2 then 3 else if p = 3 then 2 else 0
  pipAvgDelay := fun p => if p = 1 then 10 else if p = 2 then 1 else 5
  pipsDownhill := fun w => if w = 1 then [1, 2] else if w = 3 then [3] else []
  estimateDelay := fun _ _ => 0
  delayEpsilon := 0
  ripupDelayPenalty := 10
  wireBelPin := fun _ _ => 0
  rngStream := fun _ => 0
  shufflePorts := fun l => l
  sortedShuffleIds := fun l => l

/-- One-net device: bel 1 pin 11 sits on wire 1, bel 2 pin 21 on
wire 2, a single pip `1 : 1→2` of delay 3. -/
def archNet : Arch where
  pipSrc := fun _ => 1
  pipDst := fun p => if p = 1 then 2 else 0
  pipAvgDelay := fun _ => 3
  pipsDownhill := fun w => if w = 1 then [1] else []
  estimateDelay := fun _ _ => 0
  delayEpsilon := 0
  ripupDelayPenalty := 10
  wireBelPin := fun b q => if b = 1 ∧ q = 11 then 1 else if b = 2 ∧ q = 21 then 2 else 0
  rngStream := fun _ => 0
  shufflePorts := fun l => l
  sortedShuffleIds := fun l => l

/-- The single net of `netsOne`: driver on bel 1 port 11, one sink on
bel 2 port 21. -/
def netInfoOne : NetInfo :=
  { driver := { cell := some { name := 1, bel := 1, pins := [] }, port := 11 },
    users := [{ cell := some { name := 2, bel := 2, pins := [] }, port := 21 }] }

/-- A netlist with one net, name 7. -/
def netsOne : List (IdStr × NetInfo) := [(7, netInfoOne)]

/-- The result `routeNet archNet netsOne` computes on the one-net
device (checked by `rfl` where used). -/
def netsOneResult : NetResult :=
  { nc := { bs := { wireBound := [(1, (7, 0)), (2, (7, 1))], pipBound := [(1, 7)] },
            scores := {}, rippedNets := [], src_wires := [(1, 0), (2, 3)] },
    rs := { visited := [(1, { wire := 1, pip := 0, delay := 0, togo := 0, randtag := 0 }),
                        (2, { wire := 2, pip := 1, delay := 3, togo := 0, randtag := 0 })],
            visitCnt := 1, revisitCnt := 0, overtimeRevisitCnt := 0, rngCtr := 2 },
    routedOkay := true, failedDest := 0, maxDelay := 3 }

/-- A netlist whose only net has no driver cell, so `router1` has
nothing to route. -/
def netsDriverless : List (IdStr × NetInfo) :=
  [(3, { driver := { cell := none, port := 0 }, users := [] })]

/-- Inputs of the congestion-cost test vector: wire 2 is bound to
net 5 without a pip, pip 1 is free. -/
def bsCost : BindState := { wireBound := [(2, (5, 0))], pipBound := [] }

/-- Scoreboard of the congestion-cost test vector. -/
def scoresCost : RipupScoreboard :=
  { wireScores := [(2, 3)], pipScores := [], netWireScores := [((5, 2), 2)], netPipScores := [] }

/-- Router configuration of the congestion-cost test vector: routing
net 9 in rip-up mode with penalty 16. -/
def cfgCost : RouterCfg := { net_name := 9, ripup := true, ripup_penalty := 16 }

/-- Binding state with one foreign wire binding used to exercise the
back-trace conflict handling: wire 2 is bound to net 5. -/
def ncConflict : NetCtx :=
  { bs := { wireBound := [(2, (5, 0))], pipBound := [] },
    scores := {}, rippedNets := [], src_wires := [(1, 0)] }

/-- Visited map for the back-trace conflict test: wire 2 was reached
through pip 1. -/
def visConflict : List (WireId × QueuedWire) :=
  [(1, { wire := 1, pip := 0, delay := 0, togo := 0, randtag := 0 }),
   (2, { wire := 2, pip := 1, delay := 3, togo := 0, randtag := 0 })]

/-- Router configuration used with `ncConflict`. -/
def cfgConflict : RouterCfg := { net_name := 9, ripup := true, ripup_penalty := 16 }

/-- The context `backtraceStep archTwo cfgConflict visConflict ncConflict 2`
produces (checked by `rfl` where used): wire 2 rebound to net 9 through
pip 1, net 5 ripped and scored. -/
def ncConflictResult : NetCtx :=
  { bs := { wireBound := [(2, (9, 1))], pipBound := [(1, 9)] },
    scores := { wireScores := [(2, 1)], pipScores := [],
                netWireScores := [((9, 2), 1), ((5, 2), 1)], netPipScores := [] },
    rippedNets := [5],
    src_wires := [(1, 0), (2, 3)] }

/-- An empty-queue outer-loop state used to drive `iterBody` once. -/
def topEmpty : TopState :=
  { bs := {}, scores := {}, netsQueue := [], ripup_penalty := 10, iterCnt := 0, rngCtr := 0 }

/-! ## Association-list lemmas -/

namespace alist

variable {κ α : Type} [DecidableEq κ]

theorem get_set_self (m : List (κ × α)) (k : κ) (v : α) :
    alist.get (alist.set m k v) k = some v := by
  induction m with
  | nil => simp [alist.set, alist.get]
  | cons e m ih =>
    obtain ⟨k', v'⟩ := e
    by_cases h : k = k'
    · simp [alist.set, h, alist.get]
    · simp [alist.set, h, alist.get, ih]

theorem get_set_ne (m : List (κ × α)) (k x : κ) (v : α) (h : x ≠ k) :
    alist.get (alist.set m k v) x = alist.get m x := by
  induction m with
  | nil => simp [alist.set, alist.get, h]
  | cons e m ih =>
    obtain ⟨k', v'⟩ := e
    by_cases h' : k = k'
    · subst h'
      simp [alist.set, alist.get, h]
    · by_cases h'' : x = k'
      · simp [alist.set, alist.get, h', h'']
      · simp [alist.set, alist.get, h', h'', ih]

theorem get_set (m : List (κ × α)) (k x : κ) (v : α) :
    alist.get (alist.set m k v) x = if x = k then some v else alist.get m x := by
  by_cases h : x = k
  · subst h; simp [get_set_self]
  · simp [h, get_set_ne m k x v h]

theorem get_eraseK (m : List (κ × α)) (k x : κ) :
    alist.get (alist.eraseK m k) x = if x = k then none else alist.get m x := by
  induction m with
  | nil => simp [alist.eraseK, alist.get]
  | cons e m ih =>
    obtain ⟨k', v'⟩ := e
    by_cases h : k = k'
    · subst h
      by_cases h' : x = k
      · subst h'
        simp [alist.eraseK, alist.get, ih]
      · simp [alist.eraseK, alist.get, h', ih]
    · by_cases h' : x = k'
      · subst h'
        have hx : ¬ x = k := fun hx => h hx.symm
        simp [alist.eraseK, alist.get, h, hx, ih]
      · simp [alist.eraseK, alist.get, h, h', ih]

theorem isSome_get_set (m : List (κ × α)) (k x : κ) (v : α)
    (h : (alist.get m x).isSome = true) : (alist.get (alist.set m k v) x).isSome = true := by
  rw [get_set]
  by_cases hx : x = k <;> simp [hx, h]

theorem length_set (m : List (κ × α)) (k : κ) (v : α) :
    (alist.set m k v).length =
      if (alist.get m k).isSome then m.length else m.length + 1 := by
  induction m with
  | nil => simp [alist.set, alist.get]
  | cons e m ih =>
    obtain ⟨k', v'⟩ := e
    by_cases h : k = k'
    · simp [alist.set, alist.get, h]
    · simp [alist.set, alist.get, h, fun hx => h hx, ih]
      split <;> simp

theorem getN_le_bump (m : List (κ × Nat)) (k x : κ) :
    alist.getN m x ≤ alist.getN (alist.bump m k) x := by
  unfold alist.bump alist.getN
  rw [get_set]
  by_cases h : x = k
  · subst h; simp [alist.getN]
  · simp [h]

theorem getN_bump_self (m : List (κ × Nat)) (k : κ) :
    alist.getN (alist.bump m k) k = alist.getN m k + 1 := by
  unfold alist.bump alist.getN
  rw [get_set_self]
  rfl

theorem getN_bump_ne (m : List (κ × Nat)) (k x : κ) (h : x ≠ k) :
    alist.getN (alist.bump m k) x = alist.getN m x := by
  unfold alist.bump alist.getN
  rw [get_set_ne _ _ _ _ h]

end alist

/-! ## C10: the actual-delay probe leaves the out-parameter alone on failure -/

/-- C10: for every `src_wire` and `dst_wire`, when `getActualRouteDelay`
returns `false` (the destination was not reached) the caller-supplied
`delay` output parameter is left unchanged; it is written with
`visited[dst_wire].delay` only when the function returns `true`
(lines 655-662). -/
theorem C10_actual_delay_frame (arch : Arch) (bs : BindState) (fuel : Nat)
    (src_wire dst_wire : WireId) (rngCtr : Nat) (delay : delay_t) :
    ((getActualRouteDelay arch bs fuel src_wire dst_wire rngCtr delay).1 = false →
      (getActualRouteDelay arch bs fuel src_wire dst_wire rngCtr delay).2 = delay) ∧
    ((getActualRouteDelay arch bs fuel src_wire dst_wire rngCtr delay).1 = true →
      ∃ q, alist.get (routerSrcDst arch bs fuel src_wire dst_wire rngCtr).visited dst_wire
            = some q ∧
        (getActualRouteDelay arch bs fuel src_wire dst_wire rngCtr delay).2 = q.delay) := by
  unfold getActualRouteDelay
  cases h : alist.get (routerSrcDst arch bs fuel src_wire dst_wire rngCtr).visited dst_wire with
  | none => simp [h]
  | some q => simp [h]

/-- Witness for C10: on the one-net device, wire 2 has no downhill pips,
so routing from 2 to 1 fails and the probe hands back the original
delay value 7. -/
theorem C10_actual_delay_frame_witness :
    (getActualRouteDelay archNet {} 5 2 1 0 7).2 = 7 :=
  (C10_actual_delay_frame archNet {} 5 2 1 0 7).1 (by decide)

/-! ## C5: the relaxation tiebreak is a dead store (line 215) -/

/-- C5 (code bug): on every relaxation the code draws `ctx->rng()` but
assigns it to the popped stack copy `qw` (line 215) instead of the
freshly enqueued `next_qw`, so the enqueued entry keeps `randtag = 0`
while the RNG stream advances.  Concretely, on `archTwo` the sole
enqueued neighbour (wire 2) carries `randtag = 0`, the RNG cursor has
advanced past position 1, and the value that position would have
yielded, 101, is stored nowhere. -/
theorem C5_randtag_dead_store :
    (route archTwo {} {} {} 20 {} [(1, 0)] 2).visited =
      [(1, { wire := 1, pip := 0, delay := 0, togo := 0, randtag := 100 }),
       (2, { wire := 2, pip := 1, delay := 1, togo := 0, randtag := 0 })] ∧
    (route archTwo {} {} {} 20 {} [(1, 0)] 2).rngCtr = 2 ∧
    archTwo.rngStream 1 = 101 := by
  exact ⟨by decide, by decide, by decide⟩

/-! ## C3: congestion penalties in the edge cost (lines 146-191) -/

section EdgeCost

variable (arch : Arch) (cfg : RouterCfg) (scores : RipupScoreboard)
  (bs : BindState) (qw : QueuedWire) (pip : PipId)

theorem edge_wire_blocked_noripup
    (hw : checkWireAvail bs (arch.pipDst pip) = false) (hr : cfg.ripup = false) :
    edgeNextDelay arch cfg scores bs qw pip = none := by
  simp [edgeNextDelay, hw, hr]

theorem edge_wire_blocked_self
    (hw : checkWireAvail bs (arch.pipDst pip) = false) (hr : cfg.ripup = true)
    (hc : getConflictingWireNet bs (arch.pipDst pip) = cfg.net_name ∨
          getConflictingWireNet bs (arch.pipDst pip) = 0) :
    edgeNextDelay arch cfg scores bs qw pip = none := by
  simp [edgeNextDelay, hw, hr, hc]

theorem edge_pip_blocked_noripup
    (hw : checkWireAvail bs (arch.pipDst pip) = true)
    (hp : checkPipAvail bs pip = false) (hr : cfg.ripup = false) :
    edgeNextDelay arch cfg scores bs qw pip = none := by
  simp [edgeNextDelay, hw, hp, hr]

theorem edge_pip_blocked_self
    (hw : checkWireAvail bs (arch.pipDst pip) = true)
    (hp : checkPipAvail bs pip = false) (hr : cfg.ripup = true)
    (hc : getConflictingPipNet bs pip = cfg.net_name ∨ getConflictingPipNet bs pip = 0) :
    edgeNextDelay arch cfg scores bs qw pip = none := by
  simp [edgeNextDelay, hw, hp, hr, hc]

theorem edge_pip_blocked_self'
    (hw : checkWireAvail bs (arch.pipDst pip) = false) (hr : cfg.ripup = true)
    (hcw : ¬(getConflictingWireNet bs (arch.pipDst pip) = cfg.net_name ∨
             getConflictingWireNet bs (arch.pipDst pip) = 0))
    (hp : checkPipAvail bs pip = false)
    (hc : getConflictingPipNet bs pip = cfg.net_name ∨ getConflictingPipNet bs pip = 0) :
    edgeNextDelay arch cfg scores bs qw pip = none := by
  simp [edgeNextDelay, hw, hr, hcw, hp, hc]

theorem edge_free
    (hw : checkWireAvail bs (arch.pipDst pip) = true)
    (hp : checkPipAvail bs pip = true) :
    edgeNextDelay arch cfg scores bs qw pip =
      some (qw.delay + arch.pipAvgDelay pip) := by
  simp [edgeNextDelay, hw, hp]

theorem edge_wire_conflict
    (hw : checkWireAvail bs (arch.pipDst pip) = false) (hr : cfg.ripup = true)
    (hcw : ¬(getConflictingWireNet bs (arch.pipDst pip) = cfg.net_name ∨
             getConflictingWireNet bs (arch.pipDst pip) = 0))
    (hp : checkPipAvail bs pip = true) :
    edgeNextDelay arch cfg scores bs qw pip =
      some (qw.delay + arch.pipAvgDelay pip
        + ((alist.getN scores.wireScores (arch.pipDst pip) : Int) * cfg.ripup_penalty) / 8
        + (alist.getN scores.netWireScores
            (getConflictingWireNet bs (arch.pipDst pip), arch.pipDst pip) : Int)
            * cfg.ripup_penalty
        + cfg.ripup_penalty) := by
  rcases hg1 : alist.get scores.wireScores (arch.pipDst pip) with _ | s <;>
    rcases hg2 : alist.get scores.netWireScores
      (getConflictingWireNet bs (arch.pipDst pip), arch.pipDst pip) with _ | t <;>
    simp [edgeNextDelay, hw, hr, hcw, hp, alist.getN, hg1, hg2]

theorem edge_pip_conflict
    (hw : checkWireAvail bs (arch.pipDst pip) = true)
    (hp : checkPipAvail bs pip = false) (hr : cfg.ripup = true)
    (hcp : ¬(getConflictingPipNet bs pip = cfg.net_name ∨
             getConflictingPipNet bs pip = 0)) :
    edgeNextDelay arch cfg scores bs qw pip =
      some (qw.delay + arch.pipAvgDelay pip
        + ((alist.getN scores.pipScores pip : Int) * cfg.ripup_penalty) / 8
        + (alist.getN scores.netPipScores (getConflictingPipNet bs pip, pip) : Int)
            * cfg.ripup_penalty
        + cfg.ripup_penalty) := by
  rcases hg1 : alist.get scores.pipScores pip with _ | s <;>
    rcases hg2 : alist.get scores.netPipScores (getConflictingPipNet bs pip, pip) with _ | t <;>
    simp [edgeNextDelay, hw, hp, hr, hcp, alist.getN, hg1, hg2]

theorem edge_both_conflict
    (hw : checkWireAvail bs (arch.pipDst pip) = false) (hr : cfg.ripup = true)
    (hcw : ¬(getConflictingWireNet bs (arch.pipDst pip) = cfg.net_name ∨
             getConflictingWireNet bs (arch.pipDst pip) = 0))
    (hp : checkPipAvail bs pip = false)
    (hcp : ¬(getConflictingPipNet bs pip = cfg.net_name ∨
             getConflictingPipNet bs pip = 0)) :
    edgeNextDelay arch cfg scores bs qw pip =
      some (qw.delay + arch.pipAvgDelay pip
        + ((alist.getN scores.wireScores (arch.pipDst pip) : Int) * cfg.ripup_penalty) / 8
        + (alist.getN scores.netWireScores
            (getConflictingWireNet bs (arch.pipDst pip), arch.pipDst pip) : Int)
            * cfg.ripup_penalty
        + ((alist.getN scores.pipScores pip : Int) * cfg.ripup_penalty) / 8
        + (alist.getN scores.netPipScores (getConflictingPipNet bs pip, pip) : Int)
            * cfg.ripup_penalty
        + cfg.ripup_penalty) := by
  rcases hg1 : alist.get scores.wireScores (arch.pipDst pip) with _ | s <;>
    rcases hg2 : alist.get scores.netWireScores
      (getConflictingWireNet bs (arch.pipDst pip), arch.pipDst pip) with _ | t <;>
    rcases hg3 : alist.get scores.pipScores pip with _ | u <;>
    rcases hg4 : alist.get scores.netPipScores (getConflictingPipNet bs pip, pip) with _ | v <;>
    simp [edgeNextDelay, hw, hr, hcw, hp, hcp, alist.getN, hg1, hg2, hg3, hg4]

end EdgeCost

/-- C3: for every examined pip whose destination wire is unavailable,
if rip-up is disabled the edge is skipped; if the conflicting net is
the current net or the empty sentinel the edge is skipped; otherwise
the cost is base delay plus `(wireScores[next]*penalty)/8` plus
`netWireScores[(conflictNet,next)]*penalty`, symmetrically for an
unavailable pip with the pip scoreboards, plus one flat
`ripup_penalty` when any conflict was found; and with nonnegative
inputs the resulting cost is nonnegative (the `NPNR_ASSERT` of
line 191). -/
theorem C3_edge_cost (arch : Arch) (cfg : RouterCfg) (scores : RipupScoreboard)
    (bs : BindState) (qw : QueuedWire) (pip : PipId) :
    (checkWireAvail bs (arch.pipDst pip) = false → cfg.ripup = false →
      edgeNextDelay arch cfg scores bs qw pip = none) ∧
    (checkWireAvail bs (arch.pipDst pip) = false → cfg.ripup = true →
      (getConflictingWireNet bs (arch.pipDst pip) = cfg.net_name ∨
       getConflictingWireNet bs (arch.pipDst pip) = 0) →
      edgeNextDelay arch cfg scores bs qw pip = none) ∧
    (checkWireAvail bs (arch.pipDst pip) = true → checkPipAvail bs pip = false →
      cfg.ripup = false → edgeNextDelay arch cfg scores bs qw pip = none) ∧
    (checkWireAvail bs (arch.pipDst pip) = true → checkPipAvail bs pip = false →
      cfg.ripup = true →
      (getConflictingPipNet bs pip = cfg.net_name ∨ getConflictingPipNet bs pip = 0) →
      edgeNextDelay arch cfg scores bs qw pip = none) ∧
    (checkWireAvail bs (arch.pipDst pip) = true → checkPipAvail bs pip = true →
      edgeNextDelay arch cfg scores bs qw pip =
        some (qw.delay + arch.pipAvgDelay pip)) ∧
    (checkWireAvail bs (arch.pipDst pip) = false → cfg.ripup = true →
      ¬(getConflictingWireNet bs (arch.pipDst pip) = cfg.net_name ∨
        getConflictingWireNet bs (arch.pipDst pip) = 0) →
      checkPipAvail bs pip = true →
      edgeNextDelay arch cfg scores bs qw pip =
        some (qw.delay + arch.pipAvgDelay pip
          + ((alist.getN scores.wireScores (arch.pipDst pip) : Int) * cfg.ripup_penalty) / 8
          + (alist.getN scores.netWireScores
              (getConflictingWireNet bs (arch.pipDst pip), arch.pipDst pip) : Int)
              * cfg.ripup_penalty
          + cfg.ripup_penalty)) ∧
    (checkWireAvail bs (arch.pipDst pip) = true → checkPipAvail bs pip = false →
      cfg.ripup = true →
      ¬(getConflictingPipNet bs pip = cfg.net_name ∨ getConflictingPipNet bs pip = 0) →
      edgeNextDelay arch cfg scores bs qw pip =
        some (qw.delay + arch.pipAvgDelay pip
          + ((alist.getN scores.pipScores pip : Int) * cfg.ripup_penalty) / 8
          + (alist.getN scores.netPipScores (getConflictingPipNet bs pip, pip) : Int)
              * cfg.ripup_penalty
          + cfg.ripup_penalty)) ∧
    (checkWireAvail bs (arch.pipDst pip) = false → cfg.ripup = true →
      ¬(getConflictingWireNet bs (arch.pipDst pip) = cfg.net_name ∨
        getConflictingWireNet bs (arch.pipDst pip) = 0) →
      checkPipAvail bs pip = false →
      ¬(getConflictingPipNet bs pip = cfg.net_name ∨ getConflictingPipNet bs pip = 0) →
      edgeNextDelay arch cfg scores bs qw pip =
        some (qw.delay + arch.pipAvgDelay pip
          + ((alist.getN scores.wireScores (arch.pipDst pip) : Int) * cfg.ripup_penalty) / 8
          + (alist.getN scores.netWireScores
              (getConflictingWireNet bs (arch.pipDst pip), arch.pipDst pip) : Int)
              * cfg.ripup_penalty
          + ((alist.getN scores.pipScores pip : Int) * cfg.ripup_penalty) / 8
          + (alist.getN scores.netPipScores (getConflictingPipNet bs pip, pip) : Int)
              * cfg.ripup_penalty
          + cfg.ripup_penalty)) ∧
    (0 ≤ qw.delay → 0 ≤ arch.pipAvgDelay pip → 0 ≤ cfg.ripup_penalty →
      ∀ d, edgeNextDelay arch cfg scores bs qw pip = some d → 0 ≤ d) := by
  refine ⟨edge_wire_blocked_noripup arch cfg scores bs qw pip,
          edge_wire_blocked_self arch cfg scores bs qw pip,
          edge_pip_blocked_noripup arch cfg scores bs qw pip,
          edge_pip_blocked_self arch cfg scores bs qw pip,
          edge_free arch cfg scores bs qw pip,
          edge_wire_conflict arch cfg scores bs qw pip,
          edge_pip_conflict arch cfg scores bs qw pip,
          edge_both_conflict arch cfg scores bs qw pip, ?_⟩
  intro hq hpd hpen d hd
  have hdiv : ∀ (s : Nat), 0 ≤ ((s : Int) * cfg.ripup_penalty) / 8 := fun s =>
    Int.ediv_nonneg (mul_nonneg (Int.natCast_nonneg s) hpen) (by norm_num)
  have hmul : ∀ (s : Nat), 0 ≤ (s : Int) * cfg.ripup_penalty := fun s =>
    mul_nonneg (Int.natCast_nonneg s) hpen
  by_cases hw : checkWireAvail bs (arch.pipDst pip) = true
  · by_cases hp : checkPipAvail bs pip = true
    · rw [edge_free arch cfg scores bs qw pip hw hp] at hd
      simp at hd
      linarith [hd]
    · have hp' : checkPipAvail bs pip = false := by
        simpa using hp
      by_cases hr : cfg.ripup = true
      · by_cases hc : getConflictingPipNet bs pip = cfg.net_name ∨ getConflictingPipNet bs pip = 0
        · rw [edge_pip_blocked_self arch cfg scores bs qw pip hw hp' hr hc] at hd
          cases hd
        · rw [edge_pip_conflict arch cfg scores bs qw pip hw hp' hr hc] at hd
          simp at hd
          have h1 := hdiv (alist.getN scores.pipScores pip)
          have h2 := hmul (alist.getN scores.netPipScores (getConflictingPipNet bs pip, pip))
          linarith [hd]
      · have hr' : cfg.ripup = false := by
          simpa using hr
        rw [edge_pip_blocked_noripup arch cfg scores bs qw pip hw hp' hr'] at hd
        cases hd
  · have hw' : checkWireAvail bs (arch.pipDst pip) = false := by
      simpa using hw
    by_cases hr : cfg.ripup = true
    · by_cases hcw : getConflictingWireNet bs (arch.pipDst pip) = cfg.net_name ∨
        getConflictingWireNet bs (arch.pipDst pip) = 0
      · rw [edge_wire_blocked_self arch cfg scores bs qw pip hw' hr hcw] at hd
        cases hd
      · by_cases hp : checkPipAvail bs pip = true
        · rw [edge_wire_conflict arch cfg scores bs qw pip hw' hr hcw hp] at hd
          simp at hd
          have h1 := hdiv (alist.getN scores.wireScores (arch.pipDst pip))
          have h2 := hmul (alist.getN scores.netWireScores
            (getConflictingWireNet bs (arch.pipDst pip), arch.pipDst pip))
          linarith [hd]
        · have hp' : checkPipAvail bs pip = false := by
            simpa using hp
          by_cases hcp : getConflictingPipNet bs pip = cfg.net_name ∨
            getConflictingPipNet bs pip = 0
          · rw [edge_pip_blocked_self' arch cfg scores bs qw pip hw' hr hcw hp' hcp] at hd
            cases hd
          · rw [edge_both_conflict arch cfg scores bs qw pip hw' hr hcw hp' hcp] at hd
            simp at hd
            have h1 := hdiv (alist.getN scores.wireScores (arch.pipDst pip))
            have h2 := hmul (alist.getN scores.netWireScores
              (getConflictingWireNet bs (arch.pipDst pip), arch.pipDst pip))
            have h3 := hdiv (alist.getN scores.pipScores pip)
            have h4 := hmul (alist.getN scores.netPipScores (getConflictingPipNet bs pip, pip))
            linarith [hd]
    · have hr' : cfg.ripup = false := by
        simpa using hr
      rw [edge_wire_blocked_noripup arch cfg scores bs qw pip hw' hr'] at hd
      cases hd

/-- Witness for C3: on the cost test vector the wire conflict with
net 5 yields `10 + 1 + (3*16)/8 + 2*16 + 16 = 65`. -/
theorem C3_edge_cost_witness :
    edgeNextDelay archTwo cfgCost scoresCost bsCost { delay := 10 } 1 = some 65 := by
  have h := (C3_edge_cost archTwo cfgCost scoresCost bsCost { delay := 10 } 1).2.2.2.2.2.1
    (by decide) (by decide) (by decide) (by decide)
  rw [h]
  decide

/-! ## C4: the edge-examination limit (lines 136-144) -/

theorem popMin_eq_none_iff (q : List QueuedWire) : popMin q = none ↔ q = [] := by
  cases q with
  | nil => simp [popMin]
  | cons x xs =>
    simp only [popMin]
    constructor
    · intro h
      rcases hq : popMin xs with _ | p
      · rw [hq] at h
        cases h
      · rw [hq] at h
        dsimp only at h
        split at h <;> cases h
    · intro h
      cases h

theorem examineEdge_limit (arch : Arch) (cfg : RouterCfg) (scores : RipupScoreboard)
    (bs : BindState) (dst_wire : WireId) (qw : QueuedWire) (st : RouteState) (pip : PipId) :
    (examineEdge arch cfg scores bs dst_wire qw st pip).thisVisitCntLimit
      = st.thisVisitCntLimit := by
  unfold examineEdge
  rcases edgeNextDelay arch cfg scores bs qw pip with _ | d
  · rfl
  · dsimp only
    rcases alist.get st.visited (arch.pipDst pip) with _ | old
    · rfl
    · dsimp only
      split
      · rfl
      · split <;> rfl

theorem foldl_examineEdge_limit (arch : Arch) (cfg : RouterCfg) (scores : RipupScoreboard)
    (bs : BindState) (dst_wire : WireId) (qw : QueuedWire) (ps : List PipId)
    (st : RouteState) :
    ((ps.foldl (fun s p => examineEdge arch cfg scores bs dst_wire qw s p)
        st)).thisVisitCntLimit = st.thisVisitCntLimit := by
  induction ps generalizing st with
  | nil => rfl
  | cons p ps ih => rw [List.foldl_cons, ih, examineEdge_limit]

/-- C4 (amended): `thisVisitCntLimit` stays 0 exactly until the first
queue pop at which the destination wire is present in the visited map
(that is, has been _reached_, though not necessarily popped itself); at
that pop it becomes `(thisVisitCnt * 3) / 2`, computed before the
iteration's edge examinations; it is never rewritten afterwards; and
the search loop stops exactly when the queue is empty or the nonzero
limit has been reached by `thisVisitCnt`. -/
theorem C4_visit_limit (arch : Arch) (cfg : RouterCfg) (scores : RipupScoreboard)
    (bs : BindState) (dst_wire : WireId) (st : RouteState) :
    (routeStep arch cfg scores bs dst_wire st = none ↔
      st.queue = [] ∨ (st.thisVisitCntLimit ≠ 0 ∧ st.thisVisitCntLimit ≤ st.thisVisitCnt)) ∧
    (∀ qw st', routeStep arch cfg scores bs dst_wire st = some (qw, st') →
      st'.thisVisitCntLimit =
        if st.thisVisitCntLimit = 0 then
          (if (alist.get st.visited dst_wire).isSome then (st.thisVisitCnt * 3) / 2 else 0)
        else st.thisVisitCntLimit) := by
  constructor
  · rcases hq : popMin st.queue with _ | p
    · rw [popMin_eq_none_iff] at hq
      simp [routeStep, hq, popMin]
    · have hne : ¬ st.queue = [] := by
        intro h
        rw [h] at hq
        cases hq
      by_cases hc : st.thisVisitCntLimit ≠ 0 ∧ st.thisVisitCntLimit ≤ st.thisVisitCnt
      · simp [routeStep, hq, hc, hne]
      · simp [routeStep, hq, hc, hne]
  · intro qw st' h
    rcases hq : popMin st.queue with _ | p
    · rw [routeStep, hq] at h
      cases h
    · rw [routeStep, hq] at h
      dsimp only at h
      split at h
      · cases h
      · next hc =>
        rw [Option.some_inj] at h
        have h2 := congrArg Prod.snd h
        dsimp only at h2
        subst h2
        rw [foldl_examineEdge_limit]
        by_cases hl : st.thisVisitCntLimit = 0
        · by_cases hv : (alist.get st.visited dst_wire).isSome = true
          · simp [hl, hv]
          · have hv' : (alist.get st.visited dst_wire).isSome = false := by
              simpa using hv
            simp [hl, hv']
        · simp [hl]

/-- Counterexample for C4 as stated: on `archLimit` the completed search
(the next step is `none`) ends with `thisVisitCntLimit = 3 ≠ 0`, yet
the destination wire 2 never appears among the popped wires — the limit
engaged at the pop of wire 3, merely because wire 2 had been reached. -/
theorem C4_counterexample :
    (routeLoop archLimit {} {} {} 2 20
      (routeInit archLimit 2 [(1, 0)] {})).thisVisitCntLimit = 3 ∧
    routePops archLimit {} {} {} 2 20 (routeInit archLimit 2 [(1, 0)] {}) = [1, 3] ∧
    ¬ (2 : WireId) ∈ routePops archLimit {} {} {} 2 20 (routeInit archLimit 2 [(1, 0)] {}) ∧
    routeStep archLimit {} {} {} 2
      (routeLoop archLimit {} {} {} 2 20 (routeInit archLimit 2 [(1, 0)] {})) = none := by
  refine ⟨by decide, by decide, by decide, ?_⟩
  rfl

/-- Witness for C4: the first step of the `archTwo` search pops the
source while the destination is still unreached, so the limit stays 0. -/
theorem C4_visit_limit_witness :
    ({ visited := [(1, { wire := 1, pip := 0, delay := 0, togo := 0, randtag := 100 }),
                   (2, { wire := 2, pip := 1, delay := 1, togo := 0, randtag := 0 })],
       queue := [{ wire := 2, pip := 1, delay := 1, togo := 0, randtag := 0 }],
       thisVisitCnt := 1, thisVisitCntLimit := 0, revisitCnt := 0,
       overtimeRevisitCnt := 0, rngCtr := 2 } : RouteState).thisVisitCntLimit =
      if (routeInit archTwo 2 [(1, 0)] {}).thisVisitCntLimit = 0 then
        (if (alist.get (routeInit archTwo 2 [(1, 0)] {}).visited 2).isSome then
          ((routeInit archTwo 2 [(1, 0)] {}).thisVisitCnt * 3) / 2
        else 0)
      else (routeInit archTwo 2 [(1, 0)] {}).thisVisitCntLimit :=
  (C4_visit_limit archTwo {} {} {} 2 (routeInit archTwo 2 [(1, 0)] {})).2
    { wire := 1, pip := 0, delay := 0, togo := 0, randtag := 100 }
    { visited := [(1, { wire := 1, pip := 0, delay := 0, togo := 0, randtag := 100 }),
                  (2, { wire := 2, pip := 1, delay := 1, togo := 0, randtag := 0 })],
      queue := [{ wire := 2, pip := 1, delay := 1, togo := 0, randtag := 0 }],
      thisVisitCnt := 1, thisVisitCntLimit := 0, revisitCnt := 0,
      overtimeRevisitCnt := 0, rngCtr := 2 } rfl

/-! ## C8: revisit accounting (lines 136-222) -/

theorem examineEdge_cnt (arch : Arch) (cfg : RouterCfg) (scores : RipupScoreboard)
    (bs : BindState) (dst_wire : WireId) (qw : QueuedWire) (st : RouteState) (pip : PipId) :
    (examineEdge arch cfg scores bs dst_wire qw st pip).thisVisitCnt
      = st.thisVisitCnt + 1 := by
  unfold examineEdge
  rcases edgeNextDelay arch cfg scores bs qw pip with _ | d
  · rfl
  · dsimp only
    rcases alist.get st.visited (arch.pipDst pip) with _ | old
    · rfl
    · dsimp only
      split
      · rfl
      · split <;> rfl

theorem examineEdge_acct (arch : Arch) (cfg : RouterCfg) (scores : RipupScoreboard)
    (bs : BindState) (dst_wire : WireId) (qw : QueuedWire) (st : RouteState) (pip : PipId) :
    acct (examineEdge arch cfg scores bs dst_wire qw st pip) ≤ acct st + 1 := by
  unfold examineEdge acct
  rcases hE : edgeNextDelay arch cfg scores bs qw pip with _ | d
  · simp
  · have hlen := alist.length_set st.visited (arch.pipDst pip)
      ({ wire := arch.pipDst pip, pip := pip, delay := d,
         togo := arch.estimateDelay (arch.pipDst pip) dst_wire, randtag := 0 } : QueuedWire)
    rcases hv : alist.get st.visited (arch.pipDst pip) with _ | old
    · rw [hv] at hlen
      simp at hlen
      simp [hv, hlen]
      omega
    · rw [hv] at hlen
      simp at hlen
      simp only [hv]
      split
      · simp
      · split <;> simp [hlen] <;> omega

theorem examineEdge_reach (arch : Arch) (cfg : RouterCfg) (scores : RipupScoreboard)
    (bs : BindState) (dst_wire : WireId) (qw : QueuedWire) (st : RouteState) (pip : PipId)
    (h : reachInv dst_wire st) :
    reachInv dst_wire (examineEdge arch cfg scores bs dst_wire qw st pip) := by
  obtain ⟨h1, h2⟩ := h
  unfold examineEdge
  rcases hE : edgeNextDelay arch cfg scores bs qw pip with _ | d
  · exact ⟨h1, h2⟩
  · dsimp only
    rcases hv : alist.get st.visited (arch.pipDst pip) with _ | old
    · dsimp only
      exact ⟨fun hl => alist.isSome_get_set _ _ _ _ (h1 hl),
             fun ho => alist.isSome_get_set _ _ _ _ (h2 ho)⟩
    · dsimp only
      split
      · exact ⟨h1, h2⟩
      · split
        · next hl0 =>
          refine ⟨fun hl => ?_, fun ho => alist.isSome_get_set _ _ _ _ (h2 ho)⟩
          exact absurd hl0 (by simpa using hl)
        · next hl0 =>
          exact ⟨fun hl => alist.isSome_get_set _ _ _ _ (h1 hl),
                 fun _ => alist.isSome_get_set _ _ _ _ (h1 hl0)⟩

theorem foldl_examineEdge_acct (arch : Arch) (cfg : RouterCfg) (scores : RipupScoreboard)
    (bs : BindState) (dst_wire : WireId) (qw : QueuedWire) (ps : List PipId)
    (st : RouteState) :
    acct (ps.foldl (fun s p => examineEdge arch cfg scores bs dst_wire qw s p) st)
        + st.thisVisitCnt
      ≤ acct st +
        (ps.foldl (fun s p => examineEdge arch cfg scores bs dst_wire qw s p)
          st).thisVisitCnt := by
  induction ps generalizing st with
  | nil => simp
  | cons p ps ih =>
    rw [List.foldl_cons]
    have h1 := examineEdge_acct arch cfg scores bs dst_wire qw st p
    have h2 := examineEdge_cnt arch cfg scores bs dst_wire qw st p
    have h3 := ih (examineEdge arch cfg scores bs dst_wire qw st p)
    omega

theorem foldl_examineEdge_reach (arch : Arch) (cfg : RouterCfg) (scores : RipupScoreboard)
    (bs : BindState) (dst_wire : WireId) (qw : QueuedWire) (ps : List PipId)
    (st : RouteState) (h : reachInv dst_wire st) :
    reachInv dst_wire
      (ps.foldl (fun s p => examineEdge arch cfg scores bs dst_wire qw s p) st) := by
  induction ps generalizing st with
  | nil => exact h
  | cons p ps ih =>
    rw [List.foldl_cons]
    exact ih _ (examineEdge_reach arch cfg scores bs dst_wire qw st p h)

theorem routeStep_acct (arch : Arch) (cfg : RouterCfg) (scores : RipupScoreboard)
    (bs : BindState) (dst_wire : WireId) (st : RouteState) (qw : QueuedWire)
    (st' : RouteState) (h : routeStep arch cfg scores bs dst_wire st = some (qw, st')) :
    acct st' + st.thisVisitCnt ≤ acct st + st'.thisVisitCnt := by
  rcases hq : popMin st.queue with _ | p
  · rw [routeStep, hq] at h
    cases h
  · rw [routeStep, hq] at h
    dsimp only at h
    split at h
    · cases h
    · rw [Option.some_inj] at h
      have h2 := congrArg Prod.snd h
      dsimp only at h2
      subst h2
      by_cases hc : st.thisVisitCntLimit = 0 ∧ (alist.get st.visited dst_wire).isSome = true
      · have hf := foldl_examineEdge_acct arch cfg scores bs dst_wire p.1
          (arch.pipsDownhill p.1.wire)
          { st with queue := p.2, thisVisitCntLimit := st.thisVisitCnt * 3 / 2 }
        simp only [hc, and_self, if_true]
        unfold acct at hf ⊢
        simpa using hf
      · have hf := foldl_examineEdge_acct arch cfg scores bs dst_wire p.1
          (arch.pipsDownhill p.1.wire) { st with queue := p.2 }
        simp only [hc, if_false]
        unfold acct at hf ⊢
        simpa using hf

theorem routeStep_reach (arch : Arch) (cfg : RouterCfg) (scores : RipupScoreboard)
    (bs : BindState) (dst_wire : WireId) (st : RouteState) (qw : QueuedWire)
    (st' : RouteState) (h : routeStep arch cfg scores bs dst_wire st = some (qw, st'))
    (hinv : reachInv dst_wire st) : reachInv dst_wire st' := by
  rcases hq : popMin st.queue with _ | p
  · rw [routeStep, hq] at h
    cases h
  · rw [routeStep, hq] at h
    dsimp only at h
    split at h
    · cases h
    · rw [Option.some_inj] at h
      have h2 := congrArg Prod.snd h
      dsimp only at h2
      subst h2
      by_cases hc : st.thisVisitCntLimit = 0 ∧ (alist.get st.visited dst_wire).isSome = true
      · refine foldl_examineEdge_reach arch cfg scores bs dst_wire p.1 _ _ ?_
        simp only [hc, and_self, if_true]
        exact ⟨fun _ => hc.2, fun ho => hinv.2 ho⟩
      · refine foldl_examineEdge_reach arch cfg scores bs dst_wire p.1 _ _ ?_
        simp only [hc, if_false]
        exact ⟨fun hl => hinv.1 hl, fun ho => hinv.2 ho⟩

theorem routeLoop_acct (arch : Arch) (cfg : RouterCfg) (scores : RipupScoreboard)
    (bs : BindState) (dst_wire : WireId) (fuel : Nat) (st : RouteState) :
    acct (routeLoop arch cfg scores bs dst_wire fuel st) + st.thisVisitCnt
      ≤ acct st + (routeLoop arch cfg scores bs dst_wire fuel st).thisVisitCnt := by
  induction fuel generalizing st with
  | zero => simp [routeLoop]
  | succ n ih =>
    rw [routeLoop]
    rcases hs : routeStep arch cfg scores bs dst_wire st with _ | p
    · simp
    · obtain ⟨qw, st'⟩ := p
      have h1 := routeStep_acct arch cfg scores bs dst_wire st qw st' hs
      have h2 := ih st'
      dsimp only
      omega

theorem routeLoop_reach (arch : Arch) (cfg : RouterCfg) (scores : RipupScoreboard)
    (bs : BindState) (dst_wire : WireId) (fuel : Nat) (st : RouteState)
    (h : reachInv dst_wire st) :
    reachInv dst_wire (routeLoop arch cfg scores bs dst_wire fuel st) := by
  induction fuel generalizing st with
  | zero => exact h
  | succ n ih =>
    rw [routeLoop]
    rcases hs : routeStep arch cfg scores bs dst_wire st with _ | p
    · exact h
    · obtain ⟨qw, st'⟩ := p
      exact ih st' (routeStep_reach arch cfg scores bs dst_wire st qw st' hs h)

/-- C8 (amended): for a completed path search started with zeroed
counters, `visitCnt` is an _upper bound_ for
`revisitCnt + overtimeRevisitCnt + (newly settled wires)` — examined
edges that are skipped (unavailable resource, self/empty conflict, or
failed relaxation) contribute to `visitCnt` and to none of the other
terms, so the claimed equality can fail — and `overtimeRevisitCnt > 0`
still implies that the destination entered the visited map. -/
theorem C8_visit_accounting (arch : Arch) (cfg : RouterCfg) (scores : RipupScoreboard)
    (bs : BindState) (fuel : Nat) (rs : RouterState)
    (src_wires : List (WireId × delay_t)) (dst_wire : WireId)
    (hv : rs.visitCnt = 0) (hr : rs.revisitCnt = 0) (ho : rs.overtimeRevisitCnt = 0) :
    ((route arch cfg scores bs fuel rs src_wires dst_wire).revisitCnt
        + (route arch cfg scores bs fuel rs src_wires dst_wire).overtimeRevisitCnt
        + (route arch cfg scores bs fuel rs src_wires dst_wire).visited.length
      ≤ (route arch cfg scores bs fuel rs src_wires dst_wire).visitCnt
        + (routeInit arch dst_wire src_wires rs).visited.length) ∧
    ((route arch cfg scores bs fuel rs src_wires dst_wire).overtimeRevisitCnt ≠ 0 →
      (alist.get (route arch cfg scores bs fuel rs src_wires dst_wire).visited
        dst_wire).isSome = true) := by
  have hinit : (routeInit arch dst_wire src_wires rs).thisVisitCnt = 0 := rfl
  have hinitR : (routeInit arch dst_wire src_wires rs).revisitCnt = rs.revisitCnt := rfl
  have hinitO : (routeInit arch dst_wire src_wires rs).overtimeRevisitCnt
      = rs.overtimeRevisitCnt := rfl
  have hinitL : (routeInit arch dst_wire src_wires rs).thisVisitCntLimit = 0 := rfl
  have hacct := routeLoop_acct arch cfg scores bs dst_wire fuel
    (routeInit arch dst_wire src_wires rs)
  have hreach := routeLoop_reach arch cfg scores bs dst_wire fuel
    (routeInit arch dst_wire src_wires rs)
    (by
      constructor
      · intro hl
        rw [hinitL] at hl
        exact absurd rfl hl
      · intro hoo
        rw [hinitO, ho] at hoo
        exact absurd rfl hoo)
  constructor
  · unfold acct at hacct
    rw [hinit, hinitR, hinitO, hr, ho] at hacct
    simp only [route, hv]
    omega
  · intro hne
    exact hreach.2 hne

/-- Counterexample for C8 as stated: on `archTwo` the completed search
(final queue empty) examines 2 edges (`visitCnt = 2`) but has no
revisits and only one newly settled wire, so the claimed equality
`visitCnt = revisitCnt + overtimeRevisitCnt + newlySettled` fails:
the edge `2 → 1` was examined and skipped by the relaxation test. -/
theorem C8_counterexample :
    (route archTwo {} {} {} 20 {} [(1, 0)] 2).visitCnt = 2 ∧
    (route archTwo {} {} {} 20 {} [(1, 0)] 2).revisitCnt = 0 ∧
    (route archTwo {} {} {} 20 {} [(1, 0)] 2).overtimeRevisitCnt = 0 ∧
    (route archTwo {} {} {} 20 {} [(1, 0)] 2).visited.length = 2 ∧
    (routeInit archTwo 2 [(1, 0)] {}).visited.length = 1 ∧
    (routeLoop archTwo {} {} {} 2 20 (routeInit archTwo 2 [(1, 0)] {})).queue = [] ∧
    ¬ (route archTwo {} {} {} 20 {} [(1, 0)] 2).visitCnt =
        (route archTwo {} {} {} 20 {} [(1, 0)] 2).revisitCnt
        + (route archTwo {} {} {} 20 {} [(1, 0)] 2).overtimeRevisitCnt
        + ((route archTwo {} {} {} 20 {} [(1, 0)] 2).visited.length
            - (routeInit archTwo 2 [(1, 0)] {}).visited.length) := by
  exact ⟨by decide, by decide, by decide, by decide, by decide, by decide, by decide⟩

/-- Witness for C8: on `archOvertime` the improved path to wire 2 is
found after the limit engages, so `overtimeRevisitCnt = 1 ≠ 0` and the
theorem yields that the destination was indeed reached. -/
theorem C8_visit_accounting_witness :
    (alist.get (route archOvertime {} {} {} 20 {} [(1, 0)] 2).visited 2).isSome = true :=
  (C8_visit_accounting archOvertime {} {} {} 20 {} [(1, 0)] 2 rfl rfl rfl).2 (by decide)

/-! ## C9: route_all on an already-routed netlist is a no-op -/

theorem initialQueue_empty (nets : List (IdStr × NetInfo)) (bs : BindState)
    (h : ∀ e ∈ nets, e.2.driver.cell = none ∨ (netWiresOf bs e.1).isEmpty = false) :
    initialQueue nets bs = [] := by
  have key : ∀ (l : List (IdStr × NetInfo)), (∀ e ∈ l, e.2.driver.cell = none ∨
      (netWiresOf bs e.1).isEmpty = false) → ∀ q : List IdStr,
      l.foldl (fun q e =>
        if e.2.driver.cell.isNone then q
        else if (netWiresOf bs e.1).isEmpty = false then q
        else insertId q e.1) q = q := by
    intro l
    induction l with
    | nil => intro _ q; rfl
    | cons e l ih =>
      intro hl q
      rw [List.foldl_cons]
      rcases hl e (by simp) with h1 | h1
      · rw [show e.2.driver.cell.isNone = true by simp [h1], if_pos rfl]
        exact ih (fun x hx => hl x (by simp [hx])) q
      · by_cases h2 : e.2.driver.cell.isNone = true
        · rw [if_pos h2]
          exact ih (fun x hx => hl x (by simp [hx])) q
        · rw [if_neg h2, if_pos h1]
          exact ih (fun x hx => hl x (by simp [hx])) q
  exact key nets h []

/-- C9: if every net either has a nonempty `wires` map or has no driver
cell, the initial queue of lines 423-434 is empty and `router1` returns
`true` immediately (lines 436-439) with the bindings untouched and the
scoreboard still empty. -/
theorem C9_routed_noop (arch : Arch) (nets : List (IdStr × NetInfo)) (bs : BindState)
    (fuel : Nat)
    (h : ∀ e ∈ nets, e.2.driver.cell = none ∨ (netWiresOf bs e.1).isEmpty = false) :
    router1 arch nets bs fuel = (true, initTop arch nets bs) ∧
    (initTop arch nets bs).bs = bs ∧
    (initTop arch nets bs).scores = {} ∧
    (initTop arch nets bs).netsQueue = [] ∧
    (initTop arch nets bs).iterCnt = 0 := by
  have hq : initialQueue nets bs = [] := initialQueue_empty nets bs h
  have hq' : (initTop arch nets bs).netsQueue = [] := hq
  refine ⟨?_, rfl, rfl, hq', rfl⟩
  unfold router1
  rw [if_pos hq']

/-- Witness for C9: the driverless one-net netlist yields an immediate
success with untouched state. -/
theorem C9_routed_noop_witness :
    router1 archNet netsDriverless {} 5 = (true, initTop archNet netsDriverless {}) :=
  (C9_routed_noop archNet netsDriverless {} 5 (by decide)).1

/-! ## C6: penalty escalation schedule (lines 415, 631-632) -/

theorem except_bind_ok {α β : Type} (a : α) (f : α → Except RunErr β) :
    (Except.ok a >>= f) = f a := rfl

theorem except_bind_error {α β : Type} (e : RunErr) (f : α → Except RunErr β) :
    ((Except.error e : Except RunErr α) >>= f) = Except.error e := rfl

theorem except_throw_bind {α β : Type} (e : RunErr) (f : α → Except RunErr β) :
    ((throw e : Except RunErr α) >>= f) = Except.error e := rfl

theorem except_pure_eq {α : Type} (a : α) : (pure a : Except RunErr α) = Except.ok a := rfl

theorem passA_frame (arch : Arch) (nets : List (IdStr × NetInfo)) (fuel : Nat) :
    ∀ (l : List IdStr) (st : TopState) (rq : List IdStr) (st' : TopState)
      (rq' : List IdStr), passA arch nets fuel l st rq = Except.ok (st', rq') →
      st'.ripup_penalty = st.ripup_penalty ∧ st'.iterCnt = st.iterCnt ∧
      st'.netsQueue = st.netsQueue := by
  intro l
  induction l with
  | nil =>
    intro st rq st' rq' h
    rw [passA] at h
    cases h
    exact ⟨rfl, rfl, rfl⟩
  | cons n rest ih =>
    intro st rq st' rq' h
    rw [passA] at h
    rcases hr : routeNet arch nets st.scores st.bs n false 0 fuel st.rngCtr with _ | res
    · rw [hr, except_bind_error] at h
      cases h
    · rw [hr, except_bind_ok] at h
      have hh := ih _ _ _ _ h
      exact hh


theorem passB_frame (arch : Arch) (nets : List (IdStr × NetInfo)) (fuel : Nat) :
    ∀ (l : List IdStr) (st : TopState) (st' : TopState),
      passB arch nets fuel l st = Except.ok st' →
      st'.ripup_penalty = st.ripup_penalty ∧ st'.iterCnt = st.iterCnt := by
  intro l
  induction l with
  | nil =>
    intro st st' h
    rw [passB] at h
    cases h
    exact ⟨rfl, rfl⟩
  | cons n rest ih =>
    intro st st' h
    rw [passB] at h
    rcases hr : routeNet arch nets st.scores st.bs n true st.ripup_penalty fuel st.rngCtr
      with _ | res
    · rw [hr, except_bind_error] at h
      cases h
    · rw [hr, except_bind_ok] at h
      by_cases hok : res.routedOkay = false
      · rw [if_pos hok, except_throw_bind] at h
        cases h
      · rw [if_neg hok] at h
        have hh := ih _ _ h
        exact hh

theorem iterBody_penalty (arch : Arch) (nets : List (IdStr × NetInfo)) (fuel : Nat)
    (st st' : TopState) (h : iterBody arch nets fuel st = Except.ok st') :
    st'.iterCnt = st.iterCnt + 1 ∧
    st'.ripup_penalty =
      (if st'.iterCnt = 8 ∨ st'.iterCnt = 16 ∨ st'.iterCnt = 32 ∨ st'.iterCnt = 64 ∨
          st'.iterCnt = 128 then
        st.ripup_penalty + arch.ripupDelayPenalty
      else st.ripup_penalty) := by
  rw [iterBody] at h
  rcases hA : passA arch nets fuel (arch.sortedShuffleIds st.netsQueue)
      { st with netsQueue := [], iterCnt := st.iterCnt + 1 } [] with _ | r
  · rw [hA, except_bind_error] at h
    cases h
  · rw [hA, except_bind_ok] at h
    rcases hB : passB arch nets fuel (arch.sortedShuffleIds r.2) r.1 with _ | stB
    · rw [hB, except_bind_error] at h
      cases h
    · rw [hB, except_bind_ok, except_pure_eq] at h
      obtain ⟨hA1, hA2, _⟩ := passA_frame arch nets fuel _ _ _ _ _ hA
      obtain ⟨hB1, hB2⟩ := passB_frame arch nets fuel _ _ _ hB
      have hcnt : stB.iterCnt = st.iterCnt + 1 := by
        rw [hB2, hA2]
      have hpen : stB.ripup_penalty = st.ripup_penalty := by
        rw [hB1, hA1]
      cases h
      refine ⟨hcnt, ?_⟩
      simp only [hcnt, hpen]

/-- C6: `ripup_penalty` starts at the device's nominal penalty
(line 415) and a successful iteration increases it by that same base
increment exactly when the iteration count is 8, 16, 32, 64 or 128
(lines 631-632), and at no other iteration. -/
theorem C6_penalty_schedule (arch : Arch) (nets : List (IdStr × NetInfo)) (bs : BindState)
    (fuel : Nat) :
    (initTop arch nets bs).ripup_penalty = arch.ripupDelayPenalty ∧
    (∀ st st', iterBody arch nets fuel st = Except.ok st' →
      st'.iterCnt = st.iterCnt + 1 ∧
      st'.ripup_penalty =
        (if st'.iterCnt = 8 ∨ st'.iterCnt = 16 ∨ st'.iterCnt = 32 ∨ st'.iterCnt = 64 ∨
            st'.iterCnt = 128 then
          st.ripup_penalty + arch.ripupDelayPenalty
        else st.ripup_penalty)) :=
  ⟨rfl, fun st st' h => iterBody_penalty arch nets fuel st st' h⟩

/-- Witness for C6: one successful iteration from `topEmpty` moves the
count to 1 (not a boundary), leaving the penalty at 10. -/
theorem C6_penalty_schedule_witness :
    ({ bs := {}, scores := {}, netsQueue := [], ripup_penalty := 10, iterCnt := 1,
       rngCtr := 0 } : TopState).iterCnt = topEmpty.iterCnt + 1 ∧
    ({ bs := {}, scores := {}, netsQueue := [], ripup_penalty := 10, iterCnt := 1,
       rngCtr := 0 } : TopState).ripup_penalty =
      (if ({ bs := {}, scores := {}, netsQueue := [], ripup_penalty := 10, iterCnt := 1,
             rngCtr := 0 } : TopState).iterCnt = 8 ∨
          ({ bs := {}, scores := {}, netsQueue := [], ripup_penalty := 10, iterCnt := 1,
             rngCtr := 0 } : TopState).iterCnt = 16 ∨
          ({ bs := {}, scores := {}, netsQueue := [], ripup_penalty := 10, iterCnt := 1,
             rngCtr := 0 } : TopState).iterCnt = 32 ∨
          ({ bs := {}, scores := {}, netsQueue := [], ripup_penalty := 10, iterCnt := 1,
             rngCtr := 0 } : TopState).iterCnt = 64 ∨
          ({ bs := {}, scores := {}, netsQueue := [], ripup_penalty := 10, iterCnt := 1,
             rngCtr := 0 } : TopState).iterCnt = 128 then
        topEmpty.ripup_penalty + archNet.ripupDelayPenalty
      else topEmpty.ripup_penalty) :=
  (C6_penalty_schedule archNet netsOne {} 20).2 topEmpty
    { bs := {}, scores := {}, netsQueue := [], ripup_penalty := 10, iterCnt := 1,
      rngCtr := 0 } rfl

/-! ## C2: termination of the outer loop (lines 494-506, 633-646) -/

theorem iterates_succ (arch : Arch) (nets : List (IdStr × NetInfo)) (fuel : Nat)
    (k : Nat) (st : TopState) :
    iterates arch nets fuel (k + 1) st =
      (match iterBody arch nets fuel st with
        | Except.error _ => none
        | Except.ok st' => iterates arch nets fuel k st') := rfl

theorem router1Loop_true_iff (arch : Arch) (nets : List (IdStr × NetInfo)) (fuel : Nat) :
    ∀ (f : Nat) (st : TopState),
      (router1Loop arch nets fuel f st).1 = true ↔
        ∃ k, k ≤ f ∧ ∃ st', iterates arch nets fuel k st = some st' ∧
          st'.netsQueue = [] := by
  intro f
  induction f with
  | zero =>
    intro st
    by_cases h : st.netsQueue = []
    · simp only [router1Loop, if_pos h]
      constructor
      · intro _
        exact ⟨0, Nat.le_refl 0, st, rfl, h⟩
      · intro _
        trivial
    · simp only [router1Loop, if_neg h]
      constructor
      · intro hfalse
        cases hfalse
      · rintro ⟨k, hk, st', hit, hq⟩
        interval_cases k
        rw [show iterates arch nets fuel 0 st = some st from rfl] at hit
        cases hit
        exact absurd hq h
  | succ f ih =>
    intro st
    by_cases h : st.netsQueue = []
    · simp only [router1Loop, if_pos h]
      constructor
      · intro _
        exact ⟨0, Nat.zero_le _, st, rfl, h⟩
      · intro _
        trivial
    · simp only [router1Loop, if_neg h]
      rcases hb : iterBody arch nets fuel st with _ | st₁
      · constructor
        · intro hfalse
          cases hfalse
        · rintro ⟨k, hk, st', hit, hq⟩
          cases k with
          | zero =>
            rw [show iterates arch nets fuel 0 st = some st from rfl] at hit
            cases hit
            exact absurd hq h
          | succ j =>
            rw [iterates_succ, hb] at hit
            cases hit
      · rw [ih st₁]
        constructor
        · rintro ⟨k, hk, st', hit, hq⟩
          exact ⟨k + 1, Nat.succ_le_succ hk, st', by rw [iterates_succ, hb]; exact hit, hq⟩
        · rintro ⟨k, hk, st', hit, hq⟩
          cases k with
          | zero =>
            rw [show iterates arch nets fuel 0 st = some st from rfl] at hit
            cases hit
            exact absurd hq h
          | succ j =>
            rw [iterates_succ, hb] at hit
            exact ⟨j, Nat.le_of_succ_le_succ hk, st', hit, hq⟩

theorem router1Loop_iterCnt (arch : Arch) (nets : List (IdStr × NetInfo)) (fuel : Nat) :
    ∀ (f : Nat) (st : TopState),
      (router1Loop arch nets fuel f st).2.iterCnt ≤ st.iterCnt + f := by
  intro f
  induction f with
  | zero =>
    intro st
    by_cases h : st.netsQueue = [] <;> simp [router1Loop, h]
  | succ f ih =>
    intro st
    by_cases h : st.netsQueue = []
    · simp [router1Loop, h]
    · simp only [router1Loop, if_neg h]
      rcases hb : iterBody arch nets fuel st with _ | st₁
      · simp
      · have h1 := (iterBody_penalty arch nets fuel st st₁ hb).1
        have h2 := ih st₁
        dsimp only
        omega

/-- C2: `route_all` always terminates — the outer loop runs at most 200
iterations past the initial state — and it returns `true` exactly when
`netsQueue` becomes empty within the cap (including an initially empty
queue); in every other case (cap reached with nets still queued, or a
thrown routing error) it returns `false`. -/
theorem C2_route_all_termination (arch : Arch) (nets : List (IdStr × NetInfo))
    (bs : BindState) (fuel : Nat) :
    ((router1 arch nets bs fuel).1 = true ↔
      ∃ k, k ≤ 200 ∧ ∃ st', iterates arch nets fuel k (initTop arch nets bs) = some st' ∧
        st'.netsQueue = []) ∧
    (router1 arch nets bs fuel).2.iterCnt ≤ 200 := by
  unfold router1
  by_cases h : (initTop arch nets bs).netsQueue = []
  · rw [if_pos h]
    constructor
    · constructor
      · intro _
        exact ⟨0, Nat.zero_le _, initTop arch nets bs, rfl, h⟩
      · intro _
        rfl
    · show (initTop arch nets bs).iterCnt ≤ 200
      rw [show (initTop arch nets bs).iterCnt = 0 from rfl]
      omega
  · rw [if_neg h]
    refine ⟨router1Loop_true_iff arch nets fuel 200 (initTop arch nets bs), ?_⟩
    have := router1Loop_iterCnt arch nets fuel 200 (initTop arch nets bs)
    rw [show (initTop arch nets bs).iterCnt = 0 from rfl] at this
    omega

/-! ## C7: scoreboard monotonicity and the conflict increments -/

theorem scoresLe_refl (s : RipupScoreboard) : scoresLe s s :=
  ⟨fun _ => Nat.le_refl _, fun _ => Nat.le_refl _, fun _ => Nat.le_refl _,
   fun _ => Nat.le_refl _⟩

theorem scoresLe_trans {a b c : RipupScoreboard} (h1 : scoresLe a b) (h2 : scoresLe b c) :
    scoresLe a c :=
  ⟨fun k => Nat.le_trans (h1.1 k) (h2.1 k),
   fun k => Nat.le_trans (h1.2.1 k) (h2.2.1 k),
   fun k => Nat.le_trans (h1.2.2.1 k) (h2.2.2.1 k),
   fun k => Nat.le_trans (h1.2.2.2 k) (h2.2.2.2 k)⟩

theorem scoresLe_wireBump (s : RipupScoreboard) (w : WireId) (k1 k2 : IdStr × WireId) :
    scoresLe s
      { s with wireScores := alist.bump s.wireScores w,
               netWireScores := alist.bump (alist.bump s.netWireScores k1) k2 } := by
  refine ⟨fun k => alist.getN_le_bump _ _ _, fun k => Nat.le_refl _,
          fun k => ?_, fun k => Nat.le_refl _⟩
  exact Nat.le_trans (alist.getN_le_bump _ _ _) (alist.getN_le_bump _ _ _)

theorem scoresLe_pipBump (s : RipupScoreboard) (p : PipId) (k1 k2 : IdStr × PipId) :
    scoresLe s
      { s with pipScores := alist.bump s.pipScores p,
               netPipScores := alist.bump (alist.bump s.netPipScores k1) k2 } := by
  refine ⟨fun k => Nat.le_refl _, fun k => alist.getN_le_bump _ _ _,
          fun k => Nat.le_refl _, fun k => ?_⟩
  exact Nat.le_trans (alist.getN_le_bump _ _ _) (alist.getN_le_bump _ _ _)

theorem wireConflict_scores (arch : Arch) (cfg : RouterCfg) (nc : NetCtx)
    (cursor : WireId) (nc' : NetCtx) (h : wireConflict arch cfg nc cursor = Except.ok nc') :
    scoresLe nc.scores nc'.scores ∧
    (nc'.scores.pipScores = nc.scores.pipScores ∧
     nc'.scores.netPipScores = nc.scores.netPipScores) ∧
    (getConflictingWireNet nc.bs cursor = 0 → nc' = nc) ∧
    (getConflictingWireNet nc.bs cursor ≠ 0 →
      alist.getN nc'.scores.wireScores cursor
        = alist.getN nc.scores.wireScores cursor + 1 ∧
      alist.getN nc'.scores.netWireScores (cfg.net_name, cursor)
        = alist.getN nc.scores.netWireScores (cfg.net_name, cursor) + 1 ∧
      alist.getN nc'.scores.netWireScores (getConflictingWireNet nc.bs cursor, cursor)
        = alist.getN nc.scores.netWireScores
            (getConflictingWireNet nc.bs cursor, cursor) + 1) := by
  unfold wireConflict at h
  by_cases hcw : getConflictingWireNet nc.bs cursor ≠ 0
  · rw [if_pos hcw] at h
    by_cases hrip : cfg.ripup = false
    · rw [if_pos hrip] at h
      cases h
    · rw [if_neg hrip] at h
      by_cases hself : getConflictingWireNet nc.bs cursor = cfg.net_name
      · rw [if_pos hself] at h
        cases h
      · rw [if_neg hself] at h
        cases h
        have hne : (cfg.net_name, cursor) ≠
            (getConflictingWireNet nc.bs cursor, cursor) := by
          intro he
          exact hself (congrArg Prod.fst he).symm
        have hne' : (getConflictingWireNet nc.bs cursor, cursor) ≠
            (cfg.net_name, cursor) := fun he => hne he.symm
        refine ⟨scoresLe_wireBump nc.scores cursor (cfg.net_name, cursor)
            (getConflictingWireNet nc.bs cursor, cursor), ⟨rfl, rfl⟩,
          fun h0 => absurd h0 hcw, fun _ => ⟨?_, ?_, ?_⟩⟩
        · exact alist.getN_bump_self nc.scores.wireScores cursor
        · show alist.getN (alist.bump
              (alist.bump nc.scores.netWireScores (cfg.net_name, cursor))
              (getConflictingWireNet nc.bs cursor, cursor)) (cfg.net_name, cursor) = _
          rw [alist.getN_bump_ne _ _ _ hne, alist.getN_bump_self]
        · show alist.getN (alist.bump
              (alist.bump nc.scores.netWireScores (cfg.net_name, cursor))
              (getConflictingWireNet nc.bs cursor, cursor))
              (getConflictingWireNet nc.bs cursor, cursor) = _
          rw [alist.getN_bump_self, alist.getN_bump_ne _ _ _ hne']
  · rw [if_neg hcw] at h
    cases h
    have hcw0 : getConflictingWireNet nc.bs cursor = 0 := by
      by_contra hx
      exact hcw hx
    exact ⟨scoresLe_refl _, ⟨rfl, rfl⟩, fun _ => rfl, fun hne => absurd hcw0 hne⟩

theorem pipConflict_scores (arch : Arch) (cfg : RouterCfg) (nc : NetCtx)
    (pip : PipId) (nc' : NetCtx) (h : pipConflict arch cfg nc pip = Except.ok nc') :
    scoresLe nc.scores nc'.scores ∧
    (nc'.scores.wireScores = nc.scores.wireScores ∧
     nc'.scores.netWireScores = nc.scores.netWireScores) ∧
    (getConflictingPipNet nc.bs pip = 0 → nc' = nc) ∧
    (getConflictingPipNet nc.bs pip ≠ 0 →
      alist.getN nc'.scores.pipScores pip = alist.getN nc.scores.pipScores pip + 1 ∧
      alist.getN nc'.scores.netPipScores (cfg.net_name, pip)
        = alist.getN nc.scores.netPipScores (cfg.net_name, pip) + 1 ∧
      alist.getN nc'.scores.netPipScores (getConflictingPipNet nc.bs pip, pip)
        = alist.getN nc.scores.netPipScores (getConflictingPipNet nc.bs pip, pip) + 1) := by
  unfold pipConflict at h
  by_cases hcp : getConflictingPipNet nc.bs pip ≠ 0
  · rw [if_pos hcp] at h
    by_cases hrip : cfg.ripup = false
    · rw [if_pos hrip] at h
      cases h
    · rw [if_neg hrip] at h
      by_cases hself : getConflictingPipNet nc.bs pip = cfg.net_name
      · rw [if_pos hself] at h
        cases h
      · rw [if_neg hself] at h
        cases h
        have hne : (cfg.net_name, pip) ≠ (getConflictingPipNet nc.bs pip, pip) := by
          intro he
          exact hself (congrArg Prod.fst he).symm
        have hne' : (getConflictingPipNet nc.bs pip, pip) ≠ (cfg.net_name, pip) :=
          fun he => hne he.symm
        refine ⟨scoresLe_pipBump nc.scores pip (cfg.net_name, pip)
            (getConflictingPipNet nc.bs pip, pip), ⟨rfl, rfl⟩,
          fun h0 => absurd h0 hcp, fun _ => ⟨?_, ?_, ?_⟩⟩
        · exact alist.getN_bump_self nc.scores.pipScores pip
        · show alist.getN (alist.bump
              (alist.bump nc.scores.netPipScores (cfg.net_name, pip))
              (getConflictingPipNet nc.bs pip, pip)) (cfg.net_name, pip) = _
          rw [alist.getN_bump_ne _ _ _ hne, alist.getN_bump_self]
        · show alist.getN (alist.bump
              (alist.bump nc.scores.netPipScores (cfg.net_name, pip))
              (getConflictingPipNet nc.bs pip, pip))
              (getConflictingPipNet nc.bs pip, pip) = _
          rw [alist.getN_bump_self, alist.getN_bump_ne _ _ _ hne']
  · rw [if_neg hcp] at h
    cases h
    have hcp0 : getConflictingPipNet nc.bs pip = 0 := by
      by_contra hx
      exact hcp hx
    exact ⟨scoresLe_refl _, ⟨rfl, rfl⟩, fun _ => rfl, fun hne => absurd hcp0 hne⟩

theorem backtraceStep_scores (arch : Arch) (cfg : RouterCfg)
    (visited : List (WireId × QueuedWire)) (nc : NetCtx) (cursor : WireId)
    (out : NetCtx × WireId) (h : backtraceStep arch cfg visited nc cursor = Except.ok out) :
    scoresLe nc.scores out.1.scores ∧
    ((getConflictingWireNet nc.bs cursor = 0 ∧
      getConflictingPipNet nc.bs ((alist.get visited cursor).getD {}).pip = 0) →
        out.1.scores = nc.scores) ∧
    (getConflictingWireNet nc.bs cursor ≠ 0 →
        alist.getN out.1.scores.wireScores cursor
          = alist.getN nc.scores.wireScores cursor + 1 ∧
        alist.getN out.1.scores.netWireScores (cfg.net_name, cursor)
          = alist.getN nc.scores.netWireScores (cfg.net_name, cursor) + 1 ∧
        alist.getN out.1.scores.netWireScores (getConflictingWireNet nc.bs cursor, cursor)
          = alist.getN nc.scores.netWireScores
              (getConflictingWireNet nc.bs cursor, cursor) + 1) ∧
    (getConflictingWireNet nc.bs cursor = 0 →
     getConflictingPipNet nc.bs ((alist.get visited cursor).getD {}).pip ≠ 0 →
        alist.getN out.1.scores.pipScores ((alist.get visited cursor).getD {}).pip
          = alist.getN nc.scores.pipScores ((alist.get visited cursor).getD {}).pip + 1 ∧
        alist.getN out.1.scores.netPipScores
            (cfg.net_name, ((alist.get visited cursor).getD {}).pip)
          = alist.getN nc.scores.netPipScores
              (cfg.net_name, ((alist.get visited cursor).getD {}).pip) + 1 ∧
        alist.getN out.1.scores.netPipScores
            (getConflictingPipNet nc.bs ((alist.get visited cursor).getD {}).pip,
             ((alist.get visited cursor).getD {}).pip)
          = alist.getN nc.scores.netPipScores
              (getConflictingPipNet nc.bs ((alist.get visited cursor).getD {}).pip,
               ((alist.get visited cursor).getD {}).pip) + 1) := by
  rw [backtraceStep] at h
  rcases hw : wireConflict arch cfg nc cursor with _ | nc₁
  · rw [hw] at h
    cases h
  · rw [hw] at h
    dsimp only at h
    rcases hp : pipConflict arch cfg nc₁ ((alist.get visited cursor).getD {}).pip
      with _ | nc₂
    · rw [hp] at h
      cases h
    · rw [hp] at h
      cases h
      obtain ⟨hw1, hw2, hw3, hw4⟩ := wireConflict_scores arch cfg nc cursor nc₁ hw
      obtain ⟨hp1, hp2, hp3, hp4⟩ := pipConflict_scores arch cfg nc₁
        ((alist.get visited cursor).getD {}).pip nc₂ hp
      refine ⟨scoresLe_trans hw1 hp1, ?_, ?_, ?_⟩
      · rintro ⟨h0w, h0p⟩
        have e1 : nc₁ = nc := hw3 h0w
        subst e1
        have e2 : nc₂ = nc₁ := hp3 h0p
        subst e2
        rfl
      · intro hne
        obtain ⟨q1, q2, q3⟩ := hw4 hne
        show alist.getN nc₂.scores.wireScores cursor = _ ∧
          alist.getN nc₂.scores.netWireScores (cfg.net_name, cursor) = _ ∧
          alist.getN nc₂.scores.netWireScores
            (getConflictingWireNet nc.bs cursor, cursor) = _
        rw [hp2.1, hp2.2]
        exact ⟨q1, q2, q3⟩
      · intro h0w hnep
        have e1 : nc₁ = nc := hw3 h0w
        subst e1
        obtain ⟨q1, q2, q3⟩ := hp4 hnep
        show alist.getN nc₂.scores.pipScores _ = _ ∧ _
        exact ⟨q1, q2, q3⟩

theorem backtrace_scores (arch : Arch) (cfg : RouterCfg)
    (visited : List (WireId × QueuedWire)) :
    ∀ (fuel : Nat) (nc : NetCtx) (cursor : WireId) (nc' : NetCtx),
      backtrace arch cfg visited fuel nc cursor = Except.ok nc' →
      scoresLe nc.scores nc'.scores := by
  intro fuel
  induction fuel with
  | zero =>
    intro nc cursor nc' h
    rw [backtrace] at h
    cases h
  | succ f ih =>
    intro nc cursor nc' h
    rw [backtrace] at h
    by_cases hsrc : (alist.get nc.src_wires cursor).isSome = true
    · rw [if_pos hsrc, except_pure_eq] at h
      cases h
      exact scoresLe_refl _
    · rw [if_neg hsrc] at h
      rcases hbs : backtraceStep arch cfg visited nc cursor with _ | r
      · rw [hbs, except_bind_error] at h
        cases h
      · rw [hbs, except_bind_ok] at h
        exact scoresLe_trans (backtraceStep_scores arch cfg visited nc cursor r hbs).1
          (ih _ _ _ h)

theorem routeSinks_scores (arch : Arch) (cfg : RouterCfg) (fuel : Nat) :
    ∀ (users : List PortRef) (nc : NetCtx) (rs : RouterState) (maxD : delay_t)
      (res : NetResult), routeSinks arch cfg fuel users nc rs maxD = Except.ok res →
      scoresLe nc.scores res.nc.scores := by
  intro users
  induction users with
  | nil =>
    intro nc rs maxD res h
    rw [routeSinks, except_pure_eq] at h
    cases h
    exact scoresLe_refl _
  | cons user rest ih =>
    intro nc rs maxD res h
    rw [routeSinks] at h
    rcases hres : resolvePortWire arch user with _ | dw
    · rw [hres, except_bind_error] at h
      cases h
    · rw [hres, except_bind_ok] at h
      dsimp only at h
      rcases hv : alist.get
          (route arch cfg nc.scores nc.bs fuel rs nc.src_wires dw).visited dw with _ | qdst
      · rw [hv] at h
        dsimp only at h
        rw [except_pure_eq] at h
        cases h
        exact scoresLe_refl _
      · rw [hv] at h
        dsimp only at h
        rcases hb : backtrace arch cfg
            (route arch cfg nc.scores nc.bs fuel rs nc.src_wires dw).visited fuel nc dw
          with _ | nc₁
        · rw [hb, except_bind_error] at h
          cases h
        · rw [hb, except_bind_ok] at h
          exact scoresLe_trans (backtrace_scores arch cfg _ fuel nc dw nc₁ hb)
            (ih nc₁ _ _ res h)

theorem routeNet_scores (arch : Arch) (nets : List (IdStr × NetInfo))
    (scores : RipupScoreboard) (bs : BindState) (net_name : IdStr) (ripup : Bool)
    (ripup_penalty : delay_t) (fuel : Nat) (rngCtr : Nat) (res : NetResult)
    (h : routeNet arch nets scores bs net_name ripup ripup_penalty fuel rngCtr
      = Except.ok res) : scoresLe scores res.nc.scores := by
  rw [routeNet] at h
  rcases hn : alist.get nets net_name with _ | net_info
  · rw [hn] at h
    cases h
  · rw [hn] at h
    dsimp only at h
    rw [except_pure_eq, except_bind_ok] at h
    rcases hd : resolvePortWire arch net_info.driver with _ | src_wire
    · rw [hd, except_bind_error] at h
      cases h
    · rw [hd, except_bind_ok] at h
      exact routeSinks_scores arch _ fuel _ _ _ _ res h

theorem passA_scores (arch : Arch) (nets : List (IdStr × NetInfo)) (fuel : Nat) :
    ∀ (l : List IdStr) (st : TopState) (rq : List IdStr) (st' : TopState)
      (rq' : List IdStr), passA arch nets fuel l st rq = Except.ok (st', rq') →
      scoresLe st.scores st'.scores := by
  intro l
  induction l with
  | nil =>
    intro st rq st' rq' h
    rw [passA] at h
    cases h
    exact scoresLe_refl _
  | cons n rest ih =>
    intro st rq st' rq' h
    rw [passA] at h
    rcases hr : routeNet arch nets st.scores st.bs n false 0 fuel st.rngCtr with _ | res
    · rw [hr, except_bind_error] at h
      cases h
    · rw [hr, except_bind_ok] at h
      exact scoresLe_trans
        (routeNet_scores arch nets st.scores st.bs n false 0 fuel st.rngCtr res hr)
        (ih _ _ _ _ h)

theorem passB_scores (arch : Arch) (nets : List (IdStr × NetInfo)) (fuel : Nat) :
    ∀ (l : List IdStr) (st : TopState) (st' : TopState),
      passB arch nets fuel l st = Except.ok st' → scoresLe st.scores st'.scores := by
  intro l
  induction l with
  | nil =>
    intro st st' h
    rw [passB] at h
    cases h
    exact scoresLe_refl _
  | cons n rest ih =>
    intro st st' h
    rw [passB] at h
    rcases hr : routeNet arch nets st.scores st.bs n true st.ripup_penalty fuel st.rngCtr
      with _ | res
    · rw [hr, except_bind_error] at h
      cases h
    · rw [hr, except_bind_ok] at h
      by_cases hok : res.routedOkay = false
      · rw [if_pos hok, except_throw_bind] at h
        cases h
      · rw [if_neg hok] at h
        exact scoresLe_trans (routeNet_scores arch nets st.scores st.bs n true
          st.ripup_penalty fuel st.rngCtr res hr) (ih _ _ h)

theorem iterBody_scores (arch : Arch) (nets : List (IdStr × NetInfo)) (fuel : Nat)
    (st st' : TopState) (h : iterBody arch nets fuel st = Except.ok st') :
    scoresLe st.scores st'.scores := by
  rw [iterBody] at h
  rcases hA : passA arch nets fuel (arch.sortedShuffleIds st.netsQueue)
      { st with netsQueue := [], iterCnt := st.iterCnt + 1 } [] with _ | r
  · rw [hA, except_bind_error] at h
    cases h
  · rw [hA, except_bind_ok] at h
    rcases hB : passB arch nets fuel (arch.sortedShuffleIds r.2) r.1 with _ | stB
    · rw [hB, except_bind_error] at h
      cases h
    · rw [hB, except_bind_ok, except_pure_eq] at h
      cases h
      have t1 := passA_scores arch nets fuel _ _ _ _ _ hA
      have t2 := passB_scores arch nets fuel _ _ _ hB
      exact scoresLe_trans t1 t2

theorem router1Loop_scores (arch : Arch) (nets : List (IdStr × NetInfo)) (fuel : Nat) :
    ∀ (f : Nat) (st : TopState),
      scoresLe st.scores (router1Loop arch nets fuel f st).2.scores := by
  intro f
  induction f with
  | zero =>
    intro st
    by_cases h : st.netsQueue = [] <;> simp [router1Loop, h] <;> exact scoresLe_refl _
  | succ f ih =>
    intro st
    by_cases h : st.netsQueue = []
    · simp only [router1Loop, if_pos h]
      exact scoresLe_refl _
    · simp only [router1Loop, if_neg h]
      rcases hb : iterBody arch nets fuel st with _ | st₁
      · exact scoresLe_refl _
      · exact scoresLe_trans (iterBody_scores arch nets fuel st st₁ hb) (ih st₁)

/-- C7: every scoreboard counter is monotonically nondecreasing across
the outer routing loop (counters are only ever incremented), and the
only mutation sites are the back-trace conflict handlers: a wire
conflict at `cursor` increments `wireScores[cursor]`,
`netWireScores[(current net, cursor)]` and
`netWireScores[(conflicting net, cursor)]` by one each, symmetrically
for pip conflicts with the pip scoreboards, and a conflict-free
back-trace step leaves the scoreboard unchanged. -/
theorem C7_scoreboard_monotone :
    (∀ (arch : Arch) (nets : List (IdStr × NetInfo)) (fuel f : Nat) (st : TopState),
      scoresLe st.scores (router1Loop arch nets fuel f st).2.scores) ∧
    (∀ (arch : Arch) (cfg : RouterCfg) (visited : List (WireId × QueuedWire))
      (nc : NetCtx) (cursor : WireId) (out : NetCtx × WireId),
      backtraceStep arch cfg visited nc cursor = Except.ok out →
      ((getConflictingWireNet nc.bs cursor = 0 ∧
        getConflictingPipNet nc.bs ((alist.get visited cursor).getD {}).pip = 0) →
          out.1.scores = nc.scores) ∧
      (getConflictingWireNet nc.bs cursor ≠ 0 →
          alist.getN out.1.scores.wireScores cursor
            = alist.getN nc.scores.wireScores cursor + 1 ∧
          alist.getN out.1.scores.netWireScores (cfg.net_name, cursor)
            = alist.getN nc.scores.netWireScores (cfg.net_name, cursor) + 1 ∧
          alist.getN out.1.scores.netWireScores
              (getConflictingWireNet nc.bs cursor, cursor)
            = alist.getN nc.scores.netWireScores
                (getConflictingWireNet nc.bs cursor, cursor) + 1) ∧
      (getConflictingWireNet nc.bs cursor = 0 →
       getConflictingPipNet nc.bs ((alist.get visited cursor).getD {}).pip ≠ 0 →
          alist.getN out.1.scores.pipScores ((alist.get visited cursor).getD {}).pip
            = alist.getN nc.scores.pipScores
                ((alist.get visited cursor).getD {}).pip + 1 ∧
          alist.getN out.1.scores.netPipScores
              (cfg.net_name, ((alist.get visited cursor).getD {}).pip)
            = alist.getN nc.scores.netPipScores
                (cfg.net_name, ((alist.get visited cursor).getD {}).pip) + 1 ∧
          alist.getN out.1.scores.netPipScores
              (getConflictingPipNet nc.bs ((alist.get visited cursor).getD {}).pip,
               ((alist.get visited cursor).getD {}).pip)
            = alist.getN nc.scores.netPipScores
                (getConflictingPipNet nc.bs ((alist.get visited cursor).getD {}).pip,
                 ((alist.get visited cursor).getD {}).pip) + 1)) := by
  constructor
  · intro arch nets fuel f st
    exact router1Loop_scores arch nets fuel f st
  · intro arch cfg visited nc cursor out h
    obtain ⟨_, h2, h3, h4⟩ := backtraceStep_scores arch cfg visited nc cursor out h
    exact ⟨h2, h3, h4⟩

/-- Witness for C7: on the conflict test vector (wire 2 bound to the
foreign net 5 while routing net 9), the back-trace step increments
`wireScores[2]`, `netWireScores[(9,2)]` and `netWireScores[(5,2)]` from
0 to 1. -/
theorem C7_scoreboard_monotone_witness :
    alist.getN ncConflictResult.scores.wireScores 2
      = alist.getN ncConflict.scores.wireScores 2 + 1 ∧
    alist.getN ncConflictResult.scores.netWireScores (cfgConflict.net_name, 2)
      = alist.getN ncConflict.scores.netWireScores (cfgConflict.net_name, 2) + 1 ∧
    alist.getN ncConflictResult.scores.netWireScores
        (getConflictingWireNet ncConflict.bs 2, 2)
      = alist.getN ncConflict.scores.netWireScores
          (getConflictingWireNet ncConflict.bs 2, 2) + 1 :=
  (C7_scoreboard_monotone.2 archTwo cfgConflict visConflict ncConflict 2
    (ncConflictResult, 1) rfl).2.1 (by decide)

/-! ## C1: the per-net routing contract -/

namespace alist

variable {κ α : Type} [DecidableEq κ]

theorem mem_of_get (m : List (κ × α)) (k : κ) (v : α) (h : alist.get m k = some v) :
    (k, v) ∈ m := by
  induction m with
  | nil => cases h
  | cons e m ih =>
    obtain ⟨k', v'⟩ := e
    rw [alist.get] at h
    by_cases hk : k = k'
    · rw [if_pos hk] at h
      cases h
      subst hk
      exact List.mem_cons_self _ _
    · rw [if_neg hk] at h
      exact List.mem_cons_of_mem _ (ih h)

theorem get_isSome_of_mem_keys (m : List (κ × α)) (k : κ)
    (h : k ∈ m.map Prod.fst) : (alist.get m k).isSome = true := by
  induction m with
  | nil => cases h
  | cons e m ih =>
    obtain ⟨k', v'⟩ := e
    rw [alist.get]
    by_cases hk : k = k'
    · rw [if_pos hk]
      rfl
    · rw [if_neg hk]
      rcases List.mem_cons.mp h with h' | h'
      · exact absurd h' hk
      · exact ih h'

theorem eraseK_sublist (m : List (κ × α)) (k : κ) : (alist.eraseK m k).Sublist m := by
  induction m with
  | nil => exact List.Sublist.refl _
  | cons e m ih =>
    obtain ⟨k', v'⟩ := e
    rw [alist.eraseK]
    by_cases hk : k = k'
    · rw [if_pos hk]
      exact List.Sublist.cons _ ih
    · rw [if_neg hk]
      exact List.Sublist.cons₂ _ ih

theorem mem_set (m : List (κ × α)) (k : κ) (v : α) (e : κ × α)
    (h : e ∈ alist.set m k v) : e ∈ m ∨ e = (k, v) := by
  induction m with
  | nil =>
    rw [alist.set] at h
    rcases List.mem_singleton.mp h with h'
    exact Or.inr h'
  | cons e' m ih =>
    obtain ⟨k', v'⟩ := e'
    rw [alist.set] at h
    by_cases hk : k = k'
    · rw [if_pos hk] at h
      rcases List.mem_cons.mp h with h' | h'
      · exact Or.inr h'
      · exact Or.inl (List.mem_cons_of_mem _ h')
    · rw [if_neg hk] at h
      rcases List.mem_cons.mp h with h' | h'
      · exact Or.inl (h' ▸ List.mem_cons_self _ _)
      · rcases ih h' with h'' | h''
        · exact Or.inl (List.mem_cons_of_mem _ h'')
        · exact Or.inr h''

theorem mem_keys_set (m : List (κ × α)) (k : κ) (v : α) (x : κ)
    (h : x ∈ (alist.set m k v).map Prod.fst) : x ∈ m.map Prod.fst ∨ x = k := by
  rcases List.mem_map.mp h with ⟨e, he, hx⟩
  rcases mem_set m k v e he with h' | h'
  · exact Or.inl (hx ▸ List.mem_map_of_mem Prod.fst h')
  · subst h'
    exact Or.inr hx.symm

theorem set_keys_nodup (m : List (κ × α)) (k : κ) (v : α)
    (h : (m.map Prod.fst).Nodup) : ((alist.set m k v).map Prod.fst).Nodup := by
  induction m with
  | nil => simp [alist.set]
  | cons e m ih =>
    obtain ⟨k', v'⟩ := e
    rw [alist.set]
    simp only [List.map_cons, List.nodup_cons] at h
    by_cases hk : k = k'
    · rw [if_pos hk]
      subst hk
      simp only [List.map_cons, List.nodup_cons]
      exact h
    · rw [if_neg hk]
      simp only [List.map_cons, List.nodup_cons]
      refine ⟨fun hmem => ?_, ih h.2⟩
      rcases mem_keys_set m k v k' hmem with h' | h'
      · exact h.1 h'
      · exact hk h'.symm

end alist

theorem get_wireBound_unbindWire (bs : BindState) (w x : WireId) :
    alist.get (unbindWire bs w).wireBound x =
      if x = w then none else alist.get bs.wireBound x := by
  unfold unbindWire
  rcases hv : alist.get bs.wireBound w with _ | e
  · by_cases hx : x = w
    · subst hx
      simp [hv]
    · simp [hx]
  · obtain ⟨n, p⟩ := e
    dsimp only
    exact alist.get_eraseK bs.wireBound w x

theorem get_wireBound_unbindPip (arch : Arch) (bs : BindState) (p : PipId) (x : WireId) :
    alist.get (unbindPip arch bs p).wireBound x =
      if x = arch.pipDst p then none else alist.get bs.wireBound x :=
  alist.get_eraseK bs.wireBound (arch.pipDst p) x

theorem get_wireBound_bindWire (bs : BindState) (w : WireId) (n : IdStr) (x : WireId) :
    alist.get (bindWire bs w n).wireBound x =
      if x = w then some (n, 0) else alist.get bs.wireBound x :=
  alist.get_set bs.wireBound w x (n, 0)

theorem get_wireBound_bindPip (arch : Arch) (bs : BindState) (p : PipId) (n : IdStr)
    (x : WireId) :
    alist.get (bindPip arch bs p n).wireBound x =
      if x = arch.pipDst p then some (n, p) else alist.get bs.wireBound x :=
  alist.get_set bs.wireBound (arch.pipDst p) x (n, p)

theorem checkWireAvail_unbindWire_self (bs : BindState) (w : WireId) :
    checkWireAvail (unbindWire bs w) w = true := by
  unfold checkWireAvail
  rw [get_wireBound_unbindWire, if_pos rfl]
  rfl

theorem checkPipAvail_unbindPip_self (arch : Arch) (bs : BindState) (p : PipId) :
    checkPipAvail (unbindPip arch bs p) p = true := by
  unfold checkPipAvail unbindPip
  rw [alist.get_eraseK, if_pos rfl]
  rfl

theorem unbindWire_wire_sublist (bs : BindState) (w : WireId) :
    (unbindWire bs w).wireBound.Sublist bs.wireBound := by
  unfold unbindWire
  rcases alist.get bs.wireBound w with _ | e
  · exact List.Sublist.refl _
  · obtain ⟨n, p⟩ := e
    exact alist.eraseK_sublist bs.wireBound w

theorem unbindPip_wire_sublist (arch : Arch) (bs : BindState) (p : PipId) :
    (unbindPip arch bs p).wireBound.Sublist bs.wireBound :=
  alist.eraseK_sublist bs.wireBound (arch.pipDst p)

theorem foldl_unbindPip_wire_sublist (arch : Arch) (ps : List PipId) (bs : BindState) :
    ((ps.foldl (fun b p => unbindPip arch b p) bs)).wireBound.Sublist bs.wireBound := by
  induction ps generalizing bs with
  | nil => exact List.Sublist.refl _
  | cons p ps ih =>
    rw [List.foldl_cons]
    exact List.Sublist.trans (ih (unbindPip arch bs p)) (unbindPip_wire_sublist arch bs p)

theorem foldl_unbindWire_wire_sublist (ws : List WireId) (bs : BindState) :
    ((ws.foldl (fun b w => unbindWire b w) bs)).wireBound.Sublist bs.wireBound := by
  induction ws generalizing bs with
  | nil => exact List.Sublist.refl _
  | cons w ws ih =>
    rw [List.foldl_cons]
    exact List.Sublist.trans (ih (unbindWire bs w)) (unbindWire_wire_sublist bs w)

theorem ripup_net_wire_sublist (arch : Arch) (bs : BindState) (n : IdStr) :
    (ripup_net arch bs n).wireBound.Sublist bs.wireBound := by
  unfold ripup_net
  exact List.Sublist.trans (foldl_unbindWire_wire_sublist _ _)
    (foldl_unbindPip_wire_sublist arch _ bs)

theorem BindWF_of_wire_sublist (arch : Arch) (bs bs' : BindState)
    (hsub : bs'.wireBound.Sublist bs.wireBound) (h : BindWF arch bs) :
    BindWF arch bs' := by
  refine ⟨(h.1.sublist (hsub.map Prod.fst)), fun e he hp => h.2 e (hsub.subset he) hp⟩

theorem bindWire_WF (arch : Arch) (bs : BindState) (w : WireId) (n : IdStr)
    (h : BindWF arch bs) : BindWF arch (bindWire bs w n) := by
  refine ⟨alist.set_keys_nodup bs.wireBound w (n, 0) h.1, fun e he hp => ?_⟩
  rcases alist.mem_set bs.wireBound w (n, 0) e he with h' | h'
  · exact h.2 e h' hp
  · subst h'
    exact absurd rfl hp

theorem bindPip_WF (arch : Arch) (bs : BindState) (p : PipId) (n : IdStr)
    (h : BindWF arch bs) : BindWF arch (bindPip arch bs p n) := by
  refine ⟨alist.set_keys_nodup bs.wireBound (arch.pipDst p) (n, p) h.1, fun e he hp => ?_⟩
  rcases alist.mem_set bs.wireBound (arch.pipDst p) (n, p) e he with h' | h'
  · exact h.2 e h' hp
  · subst h'
    rfl

theorem unbindWire_WF (arch : Arch) (bs : BindState) (w : WireId) (h : BindWF arch bs) :
    BindWF arch (unbindWire bs w) :=
  BindWF_of_wire_sublist arch bs _ (unbindWire_wire_sublist bs w) h

theorem unbindPip_WF (arch : Arch) (bs : BindState) (p : PipId) (h : BindWF arch bs) :
    BindWF arch (unbindPip arch bs p) :=
  BindWF_of_wire_sublist arch bs _ (unbindPip_wire_sublist arch bs p) h

theorem ripup_net_WF (arch : Arch) (bs : BindState) (n : IdStr) (h : BindWF arch bs) :
    BindWF arch (ripup_net arch bs n) :=
  BindWF_of_wire_sublist arch bs _ (ripup_net_wire_sublist arch bs n) h

theorem get_eq_of_mem_nodup {κ α : Type} [DecidableEq κ] (m : List (κ × α)) (k : κ)
    (v : α) (hnd : (m.map Prod.fst).Nodup) (h : (k, v) ∈ m) : alist.get m k = some v := by
  induction m with
  | nil => cases h
  | cons e m ih =>
    obtain ⟨k', v'⟩ := e
    simp only [List.map_cons, List.nodup_cons] at hnd
    rcases List.mem_cons.mp h with h' | h'
    · cases h'
      rw [alist.get, if_pos rfl]
    · rw [alist.get]
      by_cases hk : k = k'
      · subst hk
        exact absurd (List.mem_map_of_mem Prod.fst h') hnd.1
      · rw [if_neg hk]
        exact ih hnd.2 h'

theorem foldl_unbindPip_get (arch : Arch) (ps : List PipId) (bs : BindState) (x : WireId) :
    alist.get ((ps.foldl (fun b p => unbindPip arch b p) bs)).wireBound x
      = if x ∈ ps.map arch.pipDst then none else alist.get bs.wireBound x := by
  induction ps generalizing bs with
  | nil => simp
  | cons p ps ih =>
    rw [List.foldl_cons, ih]
    by_cases hx : x ∈ ps.map arch.pipDst
    · rw [if_pos hx, if_pos]
      simp [hx]
    · rw [if_neg hx, get_wireBound_unbindPip]
      by_cases hx2 : x = arch.pipDst p
      · rw [if_pos hx2, if_pos]
        simp [hx2]
      · rw [if_neg hx2, if_neg]
        simp only [List.map_cons, List.mem_cons]
        rintro (h' | h')
        · exact hx2 h'
        · exact hx h'

theorem foldl_unbindWire_get (ws : List WireId) (bs : BindState) (x : WireId) :
    alist.get ((ws.foldl (fun b w => unbindWire b w) bs)).wireBound x
      = if x ∈ ws then none else alist.get bs.wireBound x := by
  induction ws generalizing bs with
  | nil => simp
  | cons w ws ih =>
    rw [List.foldl_cons, ih]
    by_cases hx : x ∈ ws
    · rw [if_pos hx, if_pos]
      simp [hx]
    · rw [if_neg hx, get_wireBound_unbindWire]
      by_cases hx2 : x = w
      · rw [if_pos hx2, if_pos]
        simp [hx2]
      · rw [if_neg hx2, if_neg]
        simp only [List.mem_cons]
        rintro (h' | h')
        · exact hx2 h'
        · exact hx h'

theorem ripup_net_get (arch : Arch) (bs : BindState) (n : IdStr) (x : WireId) :
    alist.get (ripup_net arch bs n).wireBound x =
      if x ∈ (netWiresOf bs n).filterMap (fun e => if e.2 = 0 then some e.1 else none)
          ∨ x ∈ ((netWiresOf bs n).filterMap
              (fun e => if e.2 ≠ 0 then some e.2 else none)).map arch.pipDst
      then none else alist.get bs.wireBound x := by
  unfold ripup_net
  rw [foldl_unbindWire_get, foldl_unbindPip_get]
  by_cases h1 : x ∈ (netWiresOf bs n).filterMap (fun e => if e.2 = 0 then some e.1 else none)
  · rw [if_pos h1, if_pos (Or.inl h1)]
  · rw [if_neg h1]
    by_cases h2 : x ∈ ((netWiresOf bs n).filterMap
        (fun e => if e.2 ≠ 0 then some e.2 else none)).map arch.pipDst
    · rw [if_pos h2, if_pos (Or.inr h2)]
    · rw [if_neg h2, if_neg]
      rintro (h' | h')
      · exact h1 h'
      · exact h2 h'

theorem mem_netWiresOf (bs : BindState) (n : IdStr) (e : WireId × PipId)
    (h : e ∈ netWiresOf bs n) :
    ∃ a ∈ bs.wireBound, a.2.1 = n ∧ a.1 = e.1 ∧ a.2.2 = e.2 := by
  unfold netWiresOf at h
  rcases List.mem_filterMap.mp h with ⟨a, ha, hfa⟩
  by_cases hn : a.2.1 = n
  · rw [if_pos hn] at hfa
    cases hfa
    exact ⟨a, ha, hn, rfl, rfl⟩
  · rw [if_neg hn] at hfa
    cases hfa

theorem netWiresOf_mem (bs : BindState) (n : IdStr) (a : WireId × (IdStr × PipId))
    (ha : a ∈ bs.wireBound) (hn : a.2.1 = n) : (a.1, a.2.2) ∈ netWiresOf bs n := by
  unfold netWiresOf
  exact List.mem_filterMap.mpr ⟨a, ha, by rw [if_pos hn]⟩

theorem ripup_net_preserves (arch : Arch) (bs : BindState) (n : IdStr) (x : WireId)
    (k : IdStr) (p : PipId) (hWF : BindWF arch bs)
    (hget : alist.get bs.wireBound x = some (k, p)) (hk : k ≠ n) :
    alist.get (ripup_net arch bs n).wireBound x = some (k, p) := by
  rw [ripup_net_get, if_neg, hget]
  rintro (h1 | h1)
  · rcases List.mem_filterMap.mp h1 with ⟨e, he, hfe⟩
    rcases mem_netWiresOf bs n e he with ⟨a, ha, han, ha1, ha2⟩
    by_cases hz : e.2 = 0
    · rw [if_pos hz] at hfe
      cases hfe
      have hga : alist.get bs.wireBound a.1 = some a.2 :=
        get_eq_of_mem_nodup bs.wireBound a.1 a.2 hWF.1 (by
          rcases a with ⟨a1, a2⟩
          exact ha)
      rw [ha1] at hga
      have h3 := Option.some.inj (hga.symm.trans hget)
      exact hk (((congrArg Prod.fst h3).symm).trans han)
    · rw [if_neg hz] at hfe
      cases hfe
  · rcases List.mem_map.mp h1 with ⟨q, hq, hqx⟩
    rcases List.mem_filterMap.mp hq with ⟨e, he, hfe⟩
    rcases mem_netWiresOf bs n e he with ⟨a, ha, han, ha1, ha2⟩
    by_cases hz : e.2 ≠ 0
    · rw [if_pos hz] at hfe
      cases hfe
      have hdst : arch.pipDst a.2.2 = a.1 := hWF.2 a ha (by rw [ha2]; exact hz)
      have hxa : x = a.1 := by
        rw [← hqx, ← ha2, hdst]
      have hga : alist.get bs.wireBound a.1 = some a.2 :=
        get_eq_of_mem_nodup bs.wireBound a.1 a.2 hWF.1 (by
          rcases a with ⟨a1, a2⟩
          exact ha)
      rw [← hxa] at hga
      have h3 := Option.some.inj (hga.symm.trans hget)
      exact hk (((congrArg Prod.fst h3).symm).trans han)
    · rw [if_neg hz] at hfe
      cases hfe

theorem ripup_net_clears (arch : Arch) (bs : BindState) (n : IdStr) (x : WireId)
    (k : IdStr) (p : PipId) (hWF : BindWF arch bs)
    (h : alist.get (ripup_net arch bs n).wireBound x = some (k, p)) : k ≠ n := by
  rw [ripup_net_get] at h
  by_cases hc : x ∈ (netWiresOf bs n).filterMap (fun e => if e.2 = 0 then some e.1 else none)
      ∨ x ∈ ((netWiresOf bs n).filterMap
          (fun e => if e.2 ≠ 0 then some e.2 else none)).map arch.pipDst
  · rw [if_pos hc] at h
    cases h
  · rw [if_neg hc] at h
    intro hkn
    have hmem : (x, (k, p)) ∈ bs.wireBound := alist.mem_of_get bs.wireBound x (k, p) h
    have hnet : (x, p) ∈ netWiresOf bs n :=
      netWiresOf_mem bs n (x, (k, p)) hmem hkn
    by_cases hz : p = 0
    · refine hc (Or.inl ?_)
      exact List.mem_filterMap.mpr ⟨(x, p), hnet, by rw [if_pos hz]⟩
    · refine hc (Or.inr ?_)
      have hp : p ∈ (netWiresOf bs n).filterMap (fun e => if e.2 ≠ 0 then some e.2 else none) :=
        List.mem_filterMap.mpr ⟨(x, p), hnet, by rw [if_pos hz]⟩
      have hdst : arch.pipDst p = x := hWF.2 (x, (k, p)) hmem hz
      exact List.mem_map.mpr ⟨p, hp, hdst⟩

theorem popMin_mem (q : List QueuedWire) (m : QueuedWire) (rest : List QueuedWire)
    (h : popMin q = some (m, rest)) : m ∈ q ∧ ∀ x ∈ rest, x ∈ q := by
  induction q generalizing m rest with
  | nil => cases h
  | cons a q ih =>
    rw [popMin] at h
    rcases hq : popMin q with _ | p
    · rw [hq] at h
      cases h
      exact ⟨List.mem_cons_self _ _, fun x hx => absurd hx (List.not_mem_nil x)⟩
    · rw [hq] at h
      obtain ⟨m', rest'⟩ := p
      dsimp only at h
      obtain ⟨hm, hr⟩ := ih m' rest' hq
      by_cases hlt : QueuedWire.keyLt m' a = true
      · rw [if_pos hlt] at h
        cases h
        refine ⟨List.mem_cons_of_mem _ hm, fun x hx => ?_⟩
        rcases List.mem_cons.mp hx with h' | h'
        · exact h' ▸ List.mem_cons_self _ _
        · exact List.mem_cons_of_mem _ (hr x h')
      · rw [if_neg hlt] at h
        cases h
        exact ⟨List.mem_cons_self _ _, fun x hx => List.mem_cons_of_mem _ hx⟩

theorem examineEdge_WF (arch : Arch) (cfg : RouterCfg) (scores : RipupScoreboard)
    (bs : BindState) (src0 : List (WireId × delay_t)) (dst_wire : WireId)
    (qw : QueuedWire) (st : RouteState) (pip : PipId) (harch : ArchWF arch)
    (hpip : pip ∈ arch.pipsDownhill qw.wire)
    (hqw : (alist.get st.visited qw.wire).isSome = true)
    (hv : VisitedWF arch src0 st.visited) (hq : QueueWF st.visited st.queue) :
    VisitedWF arch src0 (examineEdge arch cfg scores bs dst_wire qw st pip).visited ∧
    QueueWF (examineEdge arch cfg scores bs dst_wire qw st pip).visited
      (examineEdge arch cfg scores bs dst_wire qw st pip).queue ∧
    (∀ w, (alist.get st.visited w).isSome = true →
      (alist.get (examineEdge arch cfg scores bs dst_wire qw st pip).visited w).isSome
        = true) := by
  obtain ⟨hsrc, hp0⟩ := harch qw.wire pip hpip
  have main : ∀ (nqw : QueuedWire) (vis' : List (WireId × QueuedWire))
      (que' : List QueuedWire),
      vis' = alist.set st.visited (arch.pipDst pip) nqw →
      que' = st.queue ++ [nqw] →
      nqw.wire = arch.pipDst pip → nqw.pip = pip →
      VisitedWF arch src0 vis' ∧ QueueWF vis' que' ∧
      (∀ w, (alist.get st.visited w).isSome = true →
        (alist.get vis' w).isSome = true) := by
    intro nqw vis' que' hvis hque hnw hnp
    have hmono : ∀ w, (alist.get st.visited w).isSome = true →
        (alist.get vis' w).isSome = true := by
      intro w hw
      rw [hvis]
      exact alist.isSome_get_set _ _ _ _ hw
    refine ⟨?_, ?_, hmono⟩
    · intro w q hgq
      rw [hvis, alist.get_set] at hgq
      by_cases hw : w = arch.pipDst pip
      · rw [if_pos hw] at hgq
        cases hgq
        refine ⟨fun hz => absurd (hnp ▸ hz) hp0, fun _ => ⟨?_, ?_⟩⟩
        · rw [hnp, hw]
        · rw [hnp, hsrc]
          exact hmono qw.wire hqw
      · rw [if_neg hw] at hgq
        obtain ⟨c1, c2⟩ := hv w q hgq
        refine ⟨c1, fun hz => ⟨(c2 hz).1, hmono _ (c2 hz).2⟩⟩
    · intro q hqmem
      rw [hque] at hqmem
      rcases List.mem_append.mp hqmem with h' | h'
      · exact hmono q.wire (hq q h')
      · rw [List.mem_singleton.mp h']
        rw [hvis, hnw]
        rw [alist.get_set, if_pos rfl]
        rfl
  unfold examineEdge
  rcases hE : edgeNextDelay arch cfg scores bs qw pip with _ | d
  · exact ⟨hv, hq, fun w hw => hw⟩
  · dsimp only
    rcases hvd : alist.get st.visited (arch.pipDst pip) with _ | old
    · dsimp only
      refine main { wire := arch.pipDst pip, pip := pip, delay := d, togo := arch.estimateDelay (arch.pipDst pip) dst_wire, randtag := 0 } ?_ ?_ ?_ ?_ ?_ ?_ <;> rfl
    · dsimp only
      by_cases hle : old.delay ≤ d + arch.delayEpsilon
      · rw [if_pos hle]
        exact ⟨hv, hq, fun w hw => hw⟩
      · rw [if_neg hle]
        by_cases hl : st.thisVisitCntLimit = 0
        · rw [if_pos hl]
          refine main { wire := arch.pipDst pip, pip := pip, delay := d, togo := arch.estimateDelay (arch.pipDst pip) dst_wire, randtag := 0 } ?_ ?_ ?_ ?_ ?_ ?_ <;> rfl
        · rw [if_neg hl]
          refine main { wire := arch.pipDst pip, pip := pip, delay := d, togo := arch.estimateDelay (arch.pipDst pip) dst_wire, randtag := 0 } ?_ ?_ ?_ ?_ ?_ ?_ <;> rfl

theorem foldl_examineEdge_WF (arch : Arch) (cfg : RouterCfg) (scores : RipupScoreboard)
    (bs : BindState) (src0 : List (WireId × delay_t)) (dst_wire : WireId)
    (qw : QueuedWire) (harch : ArchWF arch) :
    ∀ (ps : List PipId) (st : RouteState), (∀ p ∈ ps, p ∈ arch.pipsDownhill qw.wire) →
      (alist.get st.visited qw.wire).isSome = true →
      VisitedWF arch src0 st.visited → QueueWF st.visited st.queue →
      VisitedWF arch src0
        ((ps.foldl (fun s p => examineEdge arch cfg scores bs dst_wire qw s p) st)).visited ∧
      QueueWF
        ((ps.foldl (fun s p => examineEdge arch cfg scores bs dst_wire qw s p) st)).visited
        ((ps.foldl (fun s p => examineEdge arch cfg scores bs dst_wire qw s p) st)).queue := by
  intro ps
  induction ps with
  | nil => intro st _ _ hv hq; exact ⟨hv, hq⟩
  | cons p ps ih =>
    intro st hps hqw hv hq
    rw [List.foldl_cons]
    obtain ⟨hv', hq', hmono⟩ := examineEdge_WF arch cfg scores bs src0 dst_wire qw st p
      harch (hps p (List.mem_cons_self _ _)) hqw hv hq
    exact ih _ (fun x hx => hps x (List.mem_cons_of_mem _ hx)) (hmono _ hqw) hv' hq'

theorem routeStep_WF (arch : Arch) (cfg : RouterCfg) (scores : RipupScoreboard)
    (bs : BindState) (src0 : List (WireId × delay_t)) (dst_wire : WireId)
    (st : RouteState) (qw : QueuedWire) (st' : RouteState) (harch : ArchWF arch)
    (h : routeStep arch cfg scores bs dst_wire st = some (qw, st'))
    (hv : VisitedWF arch src0 st.visited) (hq : QueueWF st.visited st.queue) :
    VisitedWF arch src0 st'.visited ∧ QueueWF st'.visited st'.queue := by
  rcases hpm : popMin st.queue with _ | p
  · rw [routeStep, hpm] at h
    cases h
  · rw [routeStep, hpm] at h
    dsimp only at h
    split at h
    · cases h
    · rw [Option.some_inj] at h
      obtain ⟨hq1, hq2⟩ := popMin_mem st.queue p.1 p.2 hpm
      have h2 := congrArg Prod.snd h
      dsimp only at h2
      subst h2
      have hm1 : (alist.get st.visited p.1.wire).isSome = true := hq p.1 hq1
      by_cases hc : st.thisVisitCntLimit = 0 ∧ (alist.get st.visited dst_wire).isSome = true
      · simp only [hc, and_self, if_true]
        exact foldl_examineEdge_WF arch cfg scores bs src0 dst_wire p.1 harch
          (arch.pipsDownhill p.1.wire)
          { st with queue := p.2, thisVisitCntLimit := st.thisVisitCnt * 3 / 2 }
          (fun x hx => hx) hm1 hv (fun q hqq => hq q (hq2 q hqq))
      · simp only [hc, if_false]
        exact foldl_examineEdge_WF arch cfg scores bs src0 dst_wire p.1 harch
          (arch.pipsDownhill p.1.wire) { st with queue := p.2 }
          (fun x hx => hx) hm1 hv (fun q hqq => hq q (hq2 q hqq))

theorem routeLoop_WF (arch : Arch) (cfg : RouterCfg) (scores : RipupScoreboard)
    (bs : BindState) (src0 : List (WireId × delay_t)) (dst_wire : WireId)
    (harch : ArchWF arch) :
    ∀ (fuel : Nat) (st : RouteState), VisitedWF arch src0 st.visited →
      QueueWF st.visited st.queue →
      VisitedWF arch src0 (routeLoop arch cfg scores bs dst_wire fuel st).visited ∧
      QueueWF (routeLoop arch cfg scores bs dst_wire fuel st).visited
        (routeLoop arch cfg scores bs dst_wire fuel st).queue := by
  intro fuel
  induction fuel with
  | zero => intro st hv hq; exact ⟨hv, hq⟩
  | succ f ih =>
    intro st hv hq
    rw [routeLoop]
    rcases hs : routeStep arch cfg scores bs dst_wire st with _ | p
    · exact ⟨hv, hq⟩
    · obtain ⟨qw, st'⟩ := p
      obtain ⟨hv', hq'⟩ := routeStep_WF arch cfg scores bs src0 dst_wire st qw st' harch
        hs hv hq
      exact ih st' hv' hq'

theorem routeInit_WF (arch : Arch) (dst_wire : WireId)
    (src_wires : List (WireId × delay_t)) (rs : RouterState) :
    VisitedWF arch src_wires (routeInit arch dst_wire src_wires rs).visited ∧
    QueueWF (routeInit arch dst_wire src_wires rs).visited
      (routeInit arch dst_wire src_wires rs).queue := by
  have key : ∀ (l : List (WireId × delay_t))
      (acc : List (WireId × QueuedWire) × List QueuedWire × Nat),
      (∀ e ∈ l, e ∈ src_wires) →
      (∀ w q, alist.get acc.1 w = some q → q.pip = 0 ∧ w ∈ src_wires.map Prod.fst) →
      (∀ q ∈ acc.2.1, (alist.get acc.1 q.wire).isSome = true) →
      (∀ w q, alist.get (l.foldl (fun (acc : List (WireId × QueuedWire) ×
            List QueuedWire × Nat) sw =>
          let qw : QueuedWire :=
            { wire := sw.1, pip := 0, delay := sw.2,
              togo := arch.estimateDelay sw.1 dst_wire, randtag := arch.rngStream acc.2.2 }
          (alist.set acc.1 sw.1 qw, acc.2.1 ++ [qw], acc.2.2 + 1)) acc).1 w = some q →
        q.pip = 0 ∧ w ∈ src_wires.map Prod.fst) ∧
      (∀ q ∈ (l.foldl (fun (acc : List (WireId × QueuedWire) ×
            List QueuedWire × Nat) sw =>
          let qw : QueuedWire :=
            { wire := sw.1, pip := 0, delay := sw.2,
              togo := arch.estimateDelay sw.1 dst_wire, randtag := arch.rngStream acc.2.2 }
          (alist.set acc.1 sw.1 qw, acc.2.1 ++ [qw], acc.2.2 + 1)) acc).2.1,
        (alist.get (l.foldl (fun (acc : List (WireId × QueuedWire) ×
            List QueuedWire × Nat) sw =>
          let qw : QueuedWire :=
            { wire := sw.1, pip := 0, delay := sw.2,
              togo := arch.estimateDelay sw.1 dst_wire, randtag := arch.rngStream acc.2.2 }
          (alist.set acc.1 sw.1 qw, acc.2.1 ++ [qw], acc.2.2 + 1)) acc).1 q.wire).isSome
          = true) := by
    intro l
    induction l with
    | nil => intro acc _ h1 h2; exact ⟨h1, h2⟩
    | cons e l ih =>
      intro acc hl h1 h2
      rw [List.foldl_cons]
      refine ih _ (fun x hx => hl x (List.mem_cons_of_mem _ hx)) ?_ ?_
      · intro w q hgq
        dsimp only at hgq
        rw [alist.get_set] at hgq
        by_cases hw : w = e.1
        · rw [if_pos hw] at hgq
          cases hgq
          exact ⟨rfl, hw ▸ List.mem_map_of_mem Prod.fst (hl e (List.mem_cons_self _ _))⟩
        · rw [if_neg hw] at hgq
          exact h1 w q hgq
      · intro q hqm
        dsimp only at hqm ⊢
        rcases List.mem_append.mp hqm with h' | h'
        · exact alist.isSome_get_set _ _ _ _ (h2 q h')
        · rw [List.mem_singleton.mp h']
          rw [alist.get_set, if_pos rfl]
          rfl
  obtain ⟨k1, k2⟩ := key src_wires ([], [], rs.rngCtr) (fun e he => he)
    (fun w q hgq => by cases hgq) (fun q hq => absurd hq (List.not_mem_nil q))
  constructor
  · intro w q hgq
    obtain ⟨hz, hmem⟩ := k1 w q hgq
    exact ⟨fun _ => alist.get_isSome_of_mem_keys src_wires w hmem,
           fun hnz => absurd hz hnz⟩
  · exact k2

theorem route_WF (arch : Arch) (cfg : RouterCfg) (scores : RipupScoreboard)
    (bs : BindState) (fuel : Nat) (rs : RouterState)
    (src_wires : List (WireId × delay_t)) (dst_wire : WireId) (harch : ArchWF arch) :
    VisitedWF arch src_wires
      (route arch cfg scores bs fuel rs src_wires dst_wire).visited := by
  obtain ⟨hv, hq⟩ := routeInit_WF arch dst_wire src_wires rs
  exact (routeLoop_WF arch cfg scores bs src_wires dst_wire harch fuel
    (routeInit arch dst_wire src_wires rs) hv hq).1

theorem wireConflict_bind (arch : Arch) (cfg : RouterCfg) (nc : NetCtx) (cursor : WireId)
    (nc' : NetCtx) (hWF : BindWF arch nc.bs)
    (hJ : SrcBound cfg.net_name nc.bs nc.src_wires)
    (h : wireConflict arch cfg nc cursor = Except.ok nc') :
    BindWF arch nc'.bs ∧ SrcBound cfg.net_name nc'.bs nc'.src_wires ∧
    nc'.src_wires = nc.src_wires := by
  unfold wireConflict at h
  by_cases hcw : getConflictingWireNet nc.bs cursor ≠ 0
  · rw [if_pos hcw] at h
    by_cases hrip : cfg.ripup = false
    · rw [if_pos hrip] at h
      cases h
    · rw [if_neg hrip] at h
      by_cases hself : getConflictingWireNet nc.bs cursor = cfg.net_name
      · rw [if_pos hself] at h
        cases h
      · rw [if_neg hself] at h
        cases h
        have hbseq : (if checkWireAvail (unbindWire nc.bs cursor) cursor = false then
              ripup_net arch (unbindWire nc.bs cursor) (getConflictingWireNet nc.bs cursor)
            else unbindWire nc.bs cursor) = unbindWire nc.bs cursor := by
          rw [checkWireAvail_unbindWire_self]
          simp
        refine ⟨?_, ?_, rfl⟩
        · show BindWF arch (if checkWireAvail (unbindWire nc.bs cursor) cursor = false then
              ripup_net arch (unbindWire nc.bs cursor) (getConflictingWireNet nc.bs cursor)
            else unbindWire nc.bs cursor)
          rw [hbseq]
          exact unbindWire_WF arch nc.bs cursor hWF
        · intro w hw
          obtain ⟨p, hp⟩ := hJ w hw
          have hwne : w ≠ cursor := by
            intro he
            subst he
            rw [show getConflictingWireNet nc.bs w = cfg.net_name from by
              unfold getConflictingWireNet
              rw [hp]] at hself
            exact hself rfl
          refine ⟨p, ?_⟩
          show alist.get (if checkWireAvail (unbindWire nc.bs cursor) cursor = false then
              ripup_net arch (unbindWire nc.bs cursor) (getConflictingWireNet nc.bs cursor)
            else unbindWire nc.bs cursor).wireBound w = _
          rw [hbseq, get_wireBound_unbindWire, if_neg hwne]
          exact hp
  · rw [if_neg hcw] at h
    cases h
    exact ⟨hWF, hJ, rfl⟩

theorem pipConflict_bind (arch : Arch) (cfg : RouterCfg) (nc : NetCtx) (pip : PipId)
    (cursor : WireId) (nc' : NetCtx) (hWF : BindWF arch nc.bs)
    (hJ : SrcBound cfg.net_name nc.bs nc.src_wires)
    (hdst : arch.pipDst pip = cursor)
    (hguard : (alist.get nc.src_wires cursor).isSome = false)
    (h : pipConflict arch cfg nc pip = Except.ok nc') :
    BindWF arch nc'.bs ∧ SrcBound cfg.net_name nc'.bs nc'.src_wires ∧
    nc'.src_wires = nc.src_wires := by
  unfold pipConflict at h
  by_cases hcp : getConflictingPipNet nc.bs pip ≠ 0
  · rw [if_pos hcp] at h
    by_cases hrip : cfg.ripup = false
    · rw [if_pos hrip] at h
      cases h
    · rw [if_neg hrip] at h
      by_cases hself : getConflictingPipNet nc.bs pip = cfg.net_name
      · rw [if_pos hself] at h
        cases h
      · rw [if_neg hself] at h
        cases h
        have hbseq : (if checkPipAvail (unbindPip arch nc.bs pip) pip = false then
              ripup_net arch (unbindPip arch nc.bs pip) (getConflictingPipNet nc.bs pip)
            else unbindPip arch nc.bs pip) = unbindPip arch nc.bs pip := by
          rw [checkPipAvail_unbindPip_self]
          simp
        refine ⟨?_, ?_, rfl⟩
        · show BindWF arch (if checkPipAvail (unbindPip arch nc.bs pip) pip = false then
              ripup_net arch (unbindPip arch nc.bs pip) (getConflictingPipNet nc.bs pip)
            else unbindPip arch nc.bs pip)
          rw [hbseq]
          exact unbindPip_WF arch nc.bs pip hWF
        · intro w hw
          obtain ⟨p', hp'⟩ := hJ w hw
          have hwne : w ≠ arch.pipDst pip := by
            intro he
            rw [hdst] at he
            subst he
            rw [hw] at hguard
            cases hguard
          refine ⟨p', ?_⟩
          show alist.get (if checkPipAvail (unbindPip arch nc.bs pip) pip = false then
              ripup_net arch (unbindPip arch nc.bs pip) (getConflictingPipNet nc.bs pip)
            else unbindPip arch nc.bs pip).wireBound w = _
          rw [hbseq, get_wireBound_unbindPip, if_neg hwne]
          exact hp'
  · rw [if_neg hcp] at h
    cases h
    exact ⟨hWF, hJ, rfl⟩

theorem backtraceStep_bind (arch : Arch) (cfg : RouterCfg)
    (visited : List (WireId × QueuedWire)) (src0 : List (WireId × delay_t))
    (nc : NetCtx) (cursor : WireId) (out : NetCtx × WireId) (harch : ArchWF arch)
    (hWF : BindWF arch nc.bs) (hJ : SrcBound cfg.net_name nc.bs nc.src_wires)
    (hvisWF : VisitedWF arch src0 visited)
    (hsub : ∀ w, (alist.get src0 w).isSome = true →
      (alist.get nc.src_wires w).isSome = true)
    (hguard : (alist.get nc.src_wires cursor).isSome = false)
    (hcurv : (alist.get visited cursor).isSome = true)
    (h : backtraceStep arch cfg visited nc cursor = Except.ok out) :
    BindWF arch out.1.bs ∧ SrcBound cfg.net_name out.1.bs out.1.src_wires ∧
    (∀ w, (alist.get nc.src_wires w).isSome = true →
      (alist.get out.1.src_wires w).isSome = true) ∧
    (alist.get out.1.src_wires cursor).isSome = true ∧
    (alist.get visited out.2).isSome = true := by
  rcases hq : alist.get visited cursor with _ | qcur
  · rw [hq] at hcurv
    cases hcurv
  · have hqd : (alist.get visited cursor).getD {} = qcur := by
      rw [hq]
      rfl
    obtain ⟨c1, c2⟩ := hvisWF cursor qcur hq
    have hpnz : qcur.pip ≠ 0 := by
      intro hz
      have := hsub cursor (c1 hz)
      rw [this] at hguard
      cases hguard
    obtain ⟨hdst, hsrcvis⟩ := c2 hpnz
    rw [backtraceStep] at h
    rcases hw : wireConflict arch cfg nc cursor with _ | nc₁
    · rw [hw] at h
      cases h
    · rw [hw] at h
      dsimp only at h
      rw [hqd] at h
      obtain ⟨hWF₁, hJ₁, hsw₁⟩ := wireConflict_bind arch cfg nc cursor nc₁ hWF hJ hw
      rcases hp : pipConflict arch cfg nc₁ qcur.pip with _ | nc₂
      · rw [hp] at h
        cases h
      · rw [hp] at h
        cases h
        obtain ⟨hWF₂, hJ₂, hsw₂⟩ := pipConflict_bind arch cfg nc₁ qcur.pip cursor nc₂
          hWF₁ hJ₁ hdst (by rw [hsw₁]; exact hguard) hp
        have hsw12 : nc₂.src_wires = nc.src_wires := by
          rw [hsw₂, hsw₁]
        refine ⟨?_, ?_, ?_, ?_, ?_⟩
        · exact bindPip_WF arch nc₂.bs qcur.pip cfg.net_name hWF₂
        · intro w hwv
          show ∃ p, alist.get (bindPip arch nc₂.bs qcur.pip cfg.net_name).wireBound w
            = some (cfg.net_name, p)
          rw [get_wireBound_bindPip]
          by_cases hwc : w = arch.pipDst qcur.pip
          · rw [if_pos hwc]
            exact ⟨qcur.pip, rfl⟩
          · rw [if_neg hwc]
            refine hJ₂ w ?_
            show (alist.get nc₂.src_wires w).isSome = true
            have hwv' : (alist.get (alist.set nc₂.src_wires cursor qcur.delay) w).isSome
                = true := hwv
            rw [alist.get_set] at hwv'
            by_cases hwcur : w = cursor
            · rw [hdst] at hwc
              exact absurd hwcur hwc
            · rw [if_neg hwcur] at hwv'
              exact hwv'
        · intro w hwv
          show (alist.get (alist.set nc₂.src_wires cursor qcur.delay) w).isSome = true
          rw [← hsw12] at hwv
          exact alist.isSome_get_set _ _ _ _ hwv
        · show (alist.get (alist.set nc₂.src_wires cursor qcur.delay) cursor).isSome = true
          rw [alist.get_set, if_pos rfl]
          rfl
        · exact hsrcvis

theorem backtrace_ok (arch : Arch) (cfg : RouterCfg)
    (visited : List (WireId × QueuedWire)) (src0 : List (WireId × delay_t))
    (harch : ArchWF arch) (hvisWF : VisitedWF arch src0 visited) :
    ∀ (fuel : Nat) (nc : NetCtx) (cursor : WireId) (nc' : NetCtx),
      BindWF arch nc.bs → SrcBound cfg.net_name nc.bs nc.src_wires →
      (∀ w, (alist.get src0 w).isSome = true →
        (alist.get nc.src_wires w).isSome = true) →
      (alist.get visited cursor).isSome = true →
      backtrace arch cfg visited fuel nc cursor = Except.ok nc' →
      BindWF arch nc'.bs ∧ SrcBound cfg.net_name nc'.bs nc'.src_wires ∧
      (∀ w, (alist.get nc.src_wires w).isSome = true →
        (alist.get nc'.src_wires w).isSome = true) ∧
      (alist.get nc'.src_wires cursor).isSome = true ∧
      (∀ w, (alist.get src0 w).isSome = true →
        (alist.get nc'.src_wires w).isSome = true) := by
  intro fuel
  induction fuel with
  | zero =>
    intro nc cursor nc' _ _ _ _ h
    rw [backtrace] at h
    cases h
  | succ f ih =>
    intro nc cursor nc' hWF hJ hsub hcurv h
    rw [backtrace] at h
    by_cases hsrc : (alist.get nc.src_wires cursor).isSome = true
    · rw [if_pos hsrc, except_pure_eq] at h
      cases h
      exact ⟨hWF, hJ, fun w hw => hw, hsrc, hsub⟩
    · rw [if_neg hsrc] at h
      rcases hbs : backtraceStep arch cfg visited nc cursor with _ | r
      · rw [hbs, except_bind_error] at h
        cases h
      · rw [hbs, except_bind_ok] at h
        have hguard : (alist.get nc.src_wires cursor).isSome = false := by
          simpa using hsrc
        obtain ⟨hWF₁, hJ₁, hmono₁, hcur₁, hnext⟩ := backtraceStep_bind arch cfg visited
          src0 nc cursor r harch hWF hJ hvisWF hsub hguard hcurv hbs
        obtain ⟨hWF', hJ', hmono', _, hsub'⟩ := ih r.1 r.2 nc' hWF₁ hJ₁
          (fun w hw => hmono₁ w (hsub w hw)) hnext h
        exact ⟨hWF', hJ', fun w hw => hmono' w (hmono₁ w hw),
          hmono' cursor hcur₁, hsub'⟩

theorem routeSinks_contract (arch : Arch) (cfg : RouterCfg) (fuel : Nat)
    (harch : ArchWF arch) :
    ∀ (users : List PortRef) (nc : NetCtx) (rs : RouterState) (maxD : delay_t)
      (res : NetResult), BindWF arch nc.bs →
      SrcBound cfg.net_name nc.bs nc.src_wires →
      routeSinks arch cfg fuel users nc rs maxD = Except.ok res →
      (res.routedOkay = true →
        BindWF arch res.nc.bs ∧ SrcBound cfg.net_name res.nc.bs res.nc.src_wires ∧
        (∀ w, (alist.get nc.src_wires w).isSome = true →
          (alist.get res.nc.src_wires w).isSome = true) ∧
        (∀ u ∈ users, ∃ dw, resolvePortWire arch u = Except.ok dw ∧
          (alist.get res.nc.src_wires dw).isSome = true)) ∧
      (res.routedOkay = false →
        (∀ w k p, alist.get res.nc.bs.wireBound w = some (k, p) → k ≠ cfg.net_name) ∧
        ∃ u ∈ users, resolvePortWire arch u = Except.ok res.failedDest ∧
          alist.get res.rs.visited res.failedDest = none) := by
  intro users
  induction users with
  | nil =>
    intro nc rs maxD res hWF hJ h
    rw [routeSinks, except_pure_eq] at h
    cases h
    constructor
    · intro _
      exact ⟨hWF, hJ, fun w hw => hw, fun u hu => absurd hu (List.not_mem_nil u)⟩
    · intro hfalse
      cases hfalse
  | cons u rest ih =>
    intro nc rs maxD res hWF hJ h
    rw [routeSinks] at h
    rcases hres : resolvePortWire arch u with _ | dw
    · rw [hres, except_bind_error] at h
      cases h
    · rw [hres, except_bind_ok] at h
      dsimp only at h
      rcases hv : alist.get
          (route arch cfg nc.scores nc.bs fuel rs nc.src_wires dw).visited dw with _ | qdst
      · rw [hv] at h
        dsimp only at h
        rw [except_pure_eq] at h
        cases h
        constructor
        · intro hfalse
          cases hfalse
        · intro _
          refine ⟨?_, u, List.mem_cons_self _ _, hres, hv⟩
          intro w k p hg hk
          subst hk
          exact ripup_net_clears arch nc.bs cfg.net_name w cfg.net_name p hWF hg rfl
      · rw [hv] at h
        dsimp only at h
        rcases hb : backtrace arch cfg
            (route arch cfg nc.scores nc.bs fuel rs nc.src_wires dw).visited fuel nc dw
          with _ | nc₁
        · rw [hb, except_bind_error] at h
          cases h
        · rw [hb, except_bind_ok] at h
          have hvisWF := route_WF arch cfg nc.scores nc.bs fuel rs nc.src_wires dw harch
          obtain ⟨hWF₁, hJ₁, hmono₁, hcur₁, _⟩ := backtrace_ok arch cfg
            (route arch cfg nc.scores nc.bs fuel rs nc.src_wires dw).visited
            nc.src_wires harch hvisWF fuel nc dw nc₁ hWF hJ (fun w hw => hw)
            (by rw [hv]; rfl) hb
          obtain ⟨ihT, ihF⟩ := ih nc₁ _ _ res hWF₁ hJ₁ h
          constructor
          · intro hok
            obtain ⟨hWF', hJ', hmono', hsinks⟩ := ihT hok
            refine ⟨hWF', hJ', fun w hw => hmono' w (hmono₁ w hw), ?_⟩
            intro u' hu'
            rcases List.mem_cons.mp hu' with h' | h'
            · subst h'
              exact ⟨dw, hres, hmono' dw hcur₁⟩
            · exact hsinks u' h'
          · intro hfail
            obtain ⟨hclear, u', hu', hrest⟩ := ihF hfail
            exact ⟨hclear, u', List.mem_cons_of_mem _ hu', hrest⟩

/-- C1: the net-name `Router` constructor either reaches every sink of
the net — leaving each resolved sink wire bound to the net through the
proxy — and reports `routedOkay = true`, or some sink wire is not
reached by the path search, in which case `routedOkay = false`, the
failed destination is recorded, and the whole net is left fully
unbound (no wire binding carries the net, the driver wire and earlier
sinks' pips included). -/
theorem C1_net_route_contract (arch : Arch) (nets : List (IdStr × NetInfo))
    (scores : RipupScoreboard) (bs : BindState) (net_name : IdStr) (ripup : Bool)
    (ripup_penalty : delay_t) (fuel rngCtr : Nat) (net_info : NetInfo) (res : NetResult)
    (harch : ArchWF arch)
    (hshuffle : ∀ (l : List PortRef) (u : PortRef), u ∈ arch.shufflePorts l ↔ u ∈ l)
    (hWF : BindWF arch bs)
    (hnets : alist.get nets net_name = some net_info)
    (h : routeNet arch nets scores bs net_name ripup ripup_penalty fuel rngCtr
      = Except.ok res) :
    (res.routedOkay = true ∧
      ∀ u ∈ net_info.users, ∃ dw, resolvePortWire arch u = Except.ok dw ∧
        ∃ p, alist.get res.nc.bs.wireBound dw = some (net_name, p)) ∨
    (res.routedOkay = false ∧
      (∀ w k p, alist.get res.nc.bs.wireBound w = some (k, p) → k ≠ net_name) ∧
      ∃ u ∈ net_info.users, resolvePortWire arch u = Except.ok res.failedDest ∧
        alist.get res.rs.visited res.failedDest = none) := by
  rw [routeNet, hnets] at h
  dsimp only at h
  rw [except_pure_eq, except_bind_ok] at h
  rcases hdrv : resolvePortWire arch net_info.driver with _ | src_wire
  · rw [hdrv, except_bind_error] at h
    cases h
  · rw [hdrv, except_bind_ok] at h
    have hWF0 : BindWF arch (bindWire (ripup_net arch bs net_name) src_wire net_name) :=
      bindWire_WF arch _ src_wire net_name (ripup_net_WF arch bs net_name hWF)
    have hJ0 : SrcBound net_name (bindWire (ripup_net arch bs net_name) src_wire net_name)
        [(src_wire, 0)] := by
      intro w hw
      have hws : w = src_wire := by
        by_cases hws : w = src_wire
        · exact hws
        · rw [show alist.get [(src_wire, (0 : delay_t))] w = none from by
            rw [alist.get, if_neg hws]
            rfl] at hw
          cases hw
      subst hws
      refine ⟨0, ?_⟩
      rw [get_wireBound_bindWire, if_pos rfl]
    obtain ⟨cT, cF⟩ := routeSinks_contract arch
      { net_name := net_name, ripup := ripup, ripup_penalty := ripup_penalty } fuel harch
      (arch.shufflePorts net_info.users)
      { bs := bindWire (ripup_net arch bs net_name) src_wire net_name, scores := scores,
        rippedNets := [], src_wires := [(src_wire, 0)] }
      { visited := [], visitCnt := 0, revisitCnt := 0, overtimeRevisitCnt := 0,
        rngCtr := rngCtr } 0 res hWF0 hJ0 h
    by_cases hok : res.routedOkay = true
    · left
      obtain ⟨_, hJ', _, hsinks⟩ := cT hok
      refine ⟨hok, fun u hu => ?_⟩
      obtain ⟨dw, hrd, hdw⟩ := hsinks u ((hshuffle net_info.users u).mpr hu)
      exact ⟨dw, hrd, hJ' dw hdw⟩
    · right
      have hok' : res.routedOkay = false := by
        simpa using hok
      obtain ⟨hclear, u, hu, hrest⟩ := cF hok'
      exact ⟨hok', hclear, u, (hshuffle net_info.users u).mp hu, hrest⟩

/-- Witness for C1: routing net 7 on the one-net device succeeds,
binding the sink wire 2 to net 7 through pip 1. -/
theorem C1_net_route_contract_witness :
    (netsOneResult.routedOkay = true ∧
      ∀ u ∈ netInfoOne.users,
        ∃ dw, resolvePortWire archNet u = Except.ok dw ∧
          ∃ p, alist.get netsOneResult.nc.bs.wireBound dw = some (7, p)) ∨
    (netsOneResult.routedOkay = false ∧
      (∀ w k p, alist.get netsOneResult.nc.bs.wireBound w = some (k, p) → k ≠ 7) ∧
      ∃ u ∈ netInfoOne.users,
        resolvePortWire archNet u = Except.ok netsOneResult.failedDest ∧
          alist.get netsOneResult.rs.visited netsOneResult.failedDest = none) := by
  refine C1_net_route_contract archNet netsOne {} {} 7 false 0 20 0 netInfoOne
    netsOneResult ?_ ?_ ?_ rfl rfl
  · intro w p hp
    by_cases hw : w = 1
    · subst hw
      have hp1 : p = 1 := by
        simpa [archNet] using hp
      subst hp1
      exact ⟨rfl, one_ne_zero⟩
    · rw [show archNet.pipsDownhill w = [] from by
        simp [archNet, hw]] at hp
      cases hp
  · intro l u
    exact Iff.rfl
  · exact ⟨List.nodup_nil, fun e he => absurd he (List.not_mem_nil e)⟩

end Router1
